import Mathlib

/-!
# Graindeer simulation (Project3): a shallow embedding

The program `Project3/Graindeer.cpp` runs four OpenMP sections (`Graindeer`,
`Grain`, `Watcher`, `DietPopularity`) in lock step: every simulated month each
section computes a next value from the current globals, all sections cross a
barrier, each assigns its own global, all cross a second barrier, `Watcher`
prints and advances the clock and the weather, all cross a third barrier.

Modelling choices
* `float` values are exact rationals (`ℚ`): rounding of float arithmetic,
  infinities and NaN are outside the model.
* The conversion `(float)` of an `int` global in `Graindeer.cpp` rounds to the
  nearest value with a 24-bit significand, ties to even (`floatOfInt`); it is
  exact up to `2^24`. In `Rand.cpp` the conversions are exact.
* `int` values are integers; the result of `++` and `--` is reduced to the
  32-bit two's complement range by `wrapInt`.
* `rand_r`, `RAND_MAX`, `cos`, `sin`, `exp` and `M_PI` come from the C library
  and are parameters (`Libc`); every theorem holds for all of them.
* The barrier protocol fixes the order of the three phases of a month, so one
  month is a function `simCycle` on the globals.
* The four sections are also modelled as threads that interleave freely
  (`Step`, `Reachable`): sequentially consistent globals, one step per block of
  a section, a barrier released when all four sections wait. Every reachable
  configuration is shown to follow `simCycle`.
-/

namespace Project3

/-! ## Machine integers -/

/-- Smallest value of a C `int`. -/
def INT_MIN : Int := -2147483648

/-- Largest value of a C `int`. -/
def INT_MAX : Int := 2147483647

/-- Value stored in an `int` when the exact result of an operation is `x`
(two's complement wraparound). -/
def wrapInt (x : Int) : Int := (x + 2147483648) % 4294967296 - 2147483648

/-- Conversion `(int) x` of a `float`: truncation toward zero. -/
def toIntTrunc (x : ℚ) : Int := if 0 ≤ x then ⌊x⌋ else ⌈x⌉

/-- Distance between neighbouring `float` values at the magnitude of `n`: a
`float` has a 24-bit significand, so the distance is 1 below `2^24`, 2 from
`2^24`, 4 from `2^25`, and so on. -/
def floatUlp (n : Nat) : Nat := 2 ^ (Nat.log2 n - 23)

/-- The `float` nearest to the natural number `n`: `n` rounded to a multiple of
`floatUlp n`, a tie going to the even multiple. -/
def floatOfNat (n : Nat) : Nat :=
  let ulp := floatUlp n
  let q := n / ulp
  let rem := n % ulp
  if 2 * rem < ulp then q * ulp
  else if ulp < 2 * rem then (q + 1) * ulp
  else if q % 2 = 0 then q * ulp
  else (q + 1) * ulp

/-- Conversion `(float) n` of an `int`: round to nearest, ties to even. -/
def floatOfInt (n : Int) : ℚ :=
  if 0 ≤ n then ((floatOfNat n.toNat : Nat) : ℚ) else -((floatOfNat (-n).toNat : Nat) : ℚ)

/-! ## The C library, as parameters -/

/-- The parts of the C library the program calls. `rand_r seed` returns the
drawn number and the updated seed. -/
structure Libc where
  RAND_MAX : Nat
  rand_r : Nat → Nat × Nat
  cos : ℚ → ℚ
  sin : ℚ → ℚ
  exp : ℚ → ℚ
  M_PI : ℚ

/-! ## Constants of `Graindeer.cpp` -/

def END_YEAR : Int := 2025

def GRAIN_GROWS_PER_MONTH : ℚ := 8
def ONE_DEER_EATS_PER_MONTH : ℚ := 1 / 2

def AVG_PRECIP_PER_MONTH : ℚ := 6
def AMP_PRECIP_PER_MONTH : ℚ := 6
def RANDOM_PRECIP : ℚ := 2

def AVG_TEMP : ℚ := 50
def AMP_TEMP : ℚ := 20
def RANDOM_TEMP : ℚ := 10

def MIDTEMP : ℚ := 40
def MIDPRECIP : ℚ := 10

def RANDOM_SOCIAL : ℚ := 5
def GRAIN_DIET_DEPLETION_PERCENT : ℚ := 15 / 100

/-! ## `Rand.cpp` -/

/-- `float SQR( float x )`. -/
def SQR (x : ℚ) : ℚ := x * x

/-- The value `Ranf( seedp, low, high )` returns when `rand_r` has drawn `r`:
`low + r * ( high - low ) / (float)RAND_MAX`. -/
def RanfValue (RAND_MAX r : Nat) (low high : ℚ) : ℚ :=
  low + (r : ℚ) * (high - low) / (RAND_MAX : ℚ)

/-- `float Ranf( unsigned int *seedp, float low, float high )`: the result and
the updated seed. -/
def Ranf (L : Libc) (seedp : Nat) (low high : ℚ) : ℚ × Nat :=
  (RanfValue L.RAND_MAX (L.rand_r seedp).1 low high, (L.rand_r seedp).2)

/-- The value `Ranf( seedp, ilow, ihigh )` (the `int` overload) returns when
`rand_r` has drawn `r`. -/
def RanfIntValue (RAND_MAX r : Nat) (ilow ihigh : Int) : Int :=
  let low : ℚ := (ilow : ℚ)
  let high : ℚ := (ihigh : ℚ) + 9999 / 10000
  toIntTrunc (RanfValue RAND_MAX r low high)

/-- `int Ranf( unsigned int *seedp, int ilow, int ihigh )`: the result and the
updated seed. -/
def RanfInt (L : Libc) (seedp : Nat) (ilow ihigh : Int) : Int × Nat :=
  (RanfIntValue L.RAND_MAX (L.rand_r seedp).1 ilow ihigh, (L.rand_r seedp).2)

/-! ## Global variables -/

/-- The globals of `Graindeer.cpp`: the eight variables that "define the
system state" and the shared generator seed. -/
structure State where
  monthCount : Int
  NowYear : Int
  NowMonth : Int
  NowPrecip : ℚ
  NowTemp : ℚ
  NowHeight : ℚ
  NowNumDeer : Int
  NowDietPopularity : ℚ
  seed : Nat
  deriving DecidableEq

/-- Weather for month `NowMonth`, drawn with the generator at `seed`: the
temperature, the precipitation (clamped at 0) and the updated seed. This is
the block that appears in `main` and again at the end of `Watcher`. -/
def environment (L : Libc) (NowMonth : Int) (seed : Nat) : ℚ × ℚ × Nat :=
  let ang : ℚ := (30 * floatOfInt NowMonth + 15) * (L.M_PI / 180)
  let temp : ℚ := AVG_TEMP - AMP_TEMP * L.cos ang
  let d1 := Ranf L seed (-RANDOM_TEMP) RANDOM_TEMP
  let NowTemp : ℚ := temp + d1.1
  let precip : ℚ := AVG_PRECIP_PER_MONTH + AMP_PRECIP_PER_MONTH * L.sin ang
  let d2 := Ranf L d1.2 (-RANDOM_PRECIP) RANDOM_PRECIP
  let NowPrecip : ℚ := precip + d2.1
  (NowTemp, (if NowPrecip < 0 then 0 else NowPrecip), d2.2)

/-- The globals when `main` reaches the parallel sections. -/
def mainInit (L : Libc) : State :=
  let env := environment L 0 0
  { monthCount := 1
    NowYear := 2019
    NowMonth := 0
    NowPrecip := env.2.1
    NowTemp := env.1
    NowHeight := 1
    NowNumDeer := 1
    NowDietPopularity := 20
    seed := env.2.2 }

/-! ## The four sections -/

/-- Compute phase of `Graindeer`: `nextNumDeer` from the current deer count
and grain height. -/
def GraindeerNext (NowNumDeer : Int) (NowHeight : ℚ) : Int :=
  if floatOfInt NowNumDeer > NowHeight then
    let nextNumDeer := wrapInt (NowNumDeer - 1)
    if nextNumDeer < 0 then 0 else nextNumDeer
  else if floatOfInt NowNumDeer < NowHeight then
    wrapInt (NowNumDeer + 1)
  else
    NowNumDeer

/-- Compute phase of `Grain`: `nextHeight` from the current globals. -/
def GrainNext (L : Libc) (NowHeight NowTemp NowPrecip : ℚ) (NowNumDeer : Int)
    (NowDietPopularity : ℚ) : ℚ :=
  let tempFactor : ℚ := L.exp (-SQR ((NowTemp - MIDTEMP) / 10))
  let precipFactor : ℚ := L.exp (-SQR ((NowPrecip - MIDPRECIP) / 10))
  let nextHeight : ℚ := NowHeight + tempFactor * precipFactor * GRAIN_GROWS_PER_MONTH
  let nextHeight : ℚ := nextHeight - floatOfInt NowNumDeer * ONE_DEER_EATS_PER_MONTH
  let nextHeight : ℚ := nextHeight - NowDietPopularity * GRAIN_DIET_DEPLETION_PERCENT
  if nextHeight < 0 then 0 else nextHeight

/-- First part of the compute phase of `DietPopularity`, once the noise has
been drawn: the noise is added and, in December, the value is multiplied by
1.5. -/
def DietPopularityBeforeDip (NowMonth : Int) (NowDietPopularity noise : ℚ) : ℚ :=
  let nextDietPopularity : ℚ := NowDietPopularity + noise
  if NowMonth = 11 then nextDietPopularity * (3 / 2) else nextDietPopularity

/-- Compute phase of `DietPopularity` once the noise has been drawn:
`nextDietPopularity` from the month, the current value and the noise. -/
def DietPopularityNext (NowMonth : Int) (NowDietPopularity noise : ℚ) : ℚ :=
  let nextDietPopularity : ℚ := DietPopularityBeforeDip NowMonth NowDietPopularity noise
  if NowMonth ≥ 4 ∨ NowMonth ≤ 6 then
    nextDietPopularity - nextDietPopularity * (25 / 1000)
  else
    nextDietPopularity

/-- One line of output of `Watcher` (the values handed to `printf`). -/
structure Record where
  NowYear : Int
  month : Int
  NowNumDeer : Int
  NowDietPopularity : ℚ
  NowTemp : ℚ
  NowTempCelsius : ℚ
  NowPrecip : ℚ
  NowPrecipCM : ℚ
  NowHeight : ℚ
  NowHeightCM : ℚ
  monthCount : Int
  deriving DecidableEq

/-- The print block of `Watcher`. -/
def WatcherPrint (s : State) : Record :=
  let NowTempCelsius : ℚ := (5 / 9) * (s.NowTemp - 32)
  let NowPrecipCM : ℚ := s.NowPrecip * (254 / 100)
  let NowHeightCM : ℚ := s.NowHeight * (254 / 100)
  { NowYear := s.NowYear
    month := wrapInt (s.NowMonth + 1)
    NowNumDeer := s.NowNumDeer
    NowDietPopularity := s.NowDietPopularity
    NowTemp := s.NowTemp
    NowTempCelsius := NowTempCelsius
    NowPrecip := s.NowPrecip
    NowPrecipCM := NowPrecipCM
    NowHeight := s.NowHeight
    NowHeightCM := NowHeightCM
    monthCount := s.monthCount }

/-- The "increment time" and "calculate new environmental parameters" blocks of
`Watcher`. -/
def WatcherAdvance (L : Libc) (s : State) : State :=
  let NowMonth := wrapInt (s.NowMonth + 1)
  let monthCount := wrapInt (s.monthCount + 1)
  let NowYear := if NowMonth > 11 then wrapInt (s.NowYear + 1) else s.NowYear
  let NowMonth := if NowMonth > 11 then 0 else NowMonth
  let env := environment L NowMonth s.seed
  { s with
    monthCount := monthCount
    NowYear := NowYear
    NowMonth := NowMonth
    NowTemp := env.1
    NowPrecip := env.2.1
    seed := env.2.2 }

/-! ## One month of each section, as a step on the globals

`snap` is the state a section read in its compute phase, `s` the state in
which its writes take place. -/

/-- The section `Graindeer` over one month: it assigns `NowNumDeer`. -/
def GraindeerStep (snap s : State) : State :=
  { s with NowNumDeer := GraindeerNext snap.NowNumDeer snap.NowHeight }

/-- The section `Grain` over one month: it assigns `NowHeight`. -/
def GrainStep (L : Libc) (snap s : State) : State :=
  { s with
    NowHeight :=
      GrainNext L snap.NowHeight snap.NowTemp snap.NowPrecip snap.NowNumDeer
        snap.NowDietPopularity }

/-- The section `DietPopularity` over one month: it draws its noise through
`&seed` and assigns `NowDietPopularity`. -/
def DietPopularityStep (L : Libc) (snap s : State) : State :=
  let d := Ranf L s.seed (-RANDOM_SOCIAL) RANDOM_SOCIAL
  { s with
    NowDietPopularity := DietPopularityNext snap.NowMonth snap.NowDietPopularity d.1
    seed := d.2 }

/-- The section `Watcher` over one month: it advances the clock and the
weather. -/
def WatcherStep (L : Libc) (_snap s : State) : State :=
  WatcherAdvance L s

/-- The globals after the compute and assign phases of one month (the state
`Watcher` prints). -/
def assigned (L : Libc) (s : State) : State :=
  DietPopularityStep L s (GrainStep L s (GraindeerStep s s))

/-- One simulated month: the record printed and the globals after the third
barrier. -/
def simCycle (L : Libc) (s : State) : Record × State :=
  (WatcherPrint (assigned L s), WatcherStep L s (assigned L s))

/-- The globals after `k` months, started from `s`. -/
def stateAfter (L : Libc) (s : State) : Nat → State
  | 0 => s
  | k + 1 => (simCycle L (stateAfter L s k)).2

/-- The loops `while( NowYear < endYear )` of the four sections, run in lock
step for at most `fuel` months: the records printed and the final globals, or
`none` when the fuel runs out first. -/
def runLoop (L : Libc) (endYear : Int) : Nat → State → Option (List Record × State)
  | 0, s => if s.NowYear < endYear then none else some ([], s)
  | fuel + 1, s =>
    if s.NowYear < endYear then
      match runLoop L endYear fuel (simCycle L s).2 with
      | none => none
      | some out => some ((simCycle L s).1 :: out.1, out.2)
    else some ([], s)

/-- The deer count after the months whose grain heights are listed, started
from `p`: `Graindeer` applied month after month. -/
def deerRun (p : Int) : List ℚ → Int
  | [] => p
  | h :: hs => deerRun (GraindeerNext p h) hs

/-- In each of the listed months the deer count (started from `p`), converted
to `float` as in the test of `Graindeer`, exceeds the grain height, which is
not negative. -/
def exceedsThroughout (p : Int) : List ℚ → Prop
  | [] => True
  | h :: hs => 0 ≤ h ∧ floatOfInt p > h ∧ exceedsThroughout (GraindeerNext p h) hs

instance exceedsThroughoutDecidable :
    (p : Int) → (hs : List ℚ) → Decidable (exceedsThroughout p hs)
  | _, [] => isTrue trivial
  | p, h :: hs =>
    @instDecidableAnd _ _ _
      (@instDecidableAnd _ _ _ (exceedsThroughoutDecidable (GraindeerNext p h) hs))

/-- The four sections started by `main`. -/
inductive Role where
  | Graindeer
  | Grain
  | DietPopularity
  | Watcher
  deriving DecidableEq

/-- The eight "global variables to define the system state". -/
inductive Field where
  | monthCount
  | NowYear
  | NowMonth
  | NowPrecip
  | NowTemp
  | NowHeight
  | NowNumDeer
  | NowDietPopularity
  deriving DecidableEq

/-- Field `f` has the same value in `s` and in `t`. -/
def keeps (f : Field) (s t : State) : Prop :=
  match f with
  | .monthCount => s.monthCount = t.monthCount
  | .NowYear => s.NowYear = t.NowYear
  | .NowMonth => s.NowMonth = t.NowMonth
  | .NowPrecip => s.NowPrecip = t.NowPrecip
  | .NowTemp => s.NowTemp = t.NowTemp
  | .NowHeight => s.NowHeight = t.NowHeight
  | .NowNumDeer => s.NowNumDeer = t.NowNumDeer
  | .NowDietPopularity => s.NowDietPopularity = t.NowDietPopularity

instance keepsDecidable (f : Field) (s t : State) : Decidable (keeps f s t) := by
  cases f <;> unfold keeps <;> infer_instance

/-- One month of section `r`, as a step on the globals. -/
def roleStep (r : Role) (L : Libc) (snap s : State) : State :=
  match r with
  | .Graindeer => GraindeerStep snap s
  | .Grain => GrainStep L snap s
  | .DietPopularity => DietPopularityStep L snap s
  | .Watcher => WatcherStep L snap s

/-- Some month of section `r` changes field `f`. -/
def changesField (r : Role) (f : Field) : Prop :=
  ∃ (L : Libc) (snap s : State), ¬ keeps f s (roleStep r L snap s)

/-- A concrete instance of the library parameters: a linear congruential
`rand_r` and low-order rational approximations of `cos`, `sin`, `exp`. -/
def sampleLibc : Libc where
  RAND_MAX := 2147483647
  rand_r := fun seed =>
    ((seed * 1103515245 + 12345) % 4294967296 / 2, (seed * 1103515245 + 12345) % 4294967296)
  cos := fun x => 1 - x * x / 2
  sin := fun x => x
  exp := fun x => 1 / (1 - x)
  M_PI := 355 / 113

/-! ## The generator -/

/-- The value of the global `seed` after `n` calls of `rand_r( &seed )`,
started from its initial value 0. -/
def seedAfterDraws (L : Libc) : Nat → Nat
  | 0 => 0
  | n + 1 => (L.rand_r (seedAfterDraws L n)).2

/-- The noise `DietPopularity` draws in month `k` (counted from 0) of a run
started by `main`. -/
def dietNoise (L : Libc) (k : Nat) : ℚ :=
  (Ranf L (stateAfter L (mainInit L) k).seed (-RANDOM_SOCIAL) RANDOM_SOCIAL).1

/-! ## The four sections as concurrent threads

The sequential `simCycle` above takes the order of the phases for granted. Here
the four sections are threads that run in any interleaving. A step is either
one block of one section (its loop test, its compute block, its assignment,
the print-and-advance block of `Watcher`) or the release of a barrier, which
happens when all four sections wait at a `#pragma omp barrier`. -/

/-- Where a section stands in its loop: before the loop test, before its
compute block, waiting at the first barrier, before its assignment, waiting at
the second barrier, before the print block, waiting at the third barrier, or
out of the loop. -/
inductive Pc where
  | test
  | compute
  | barrier1
  | assign
  | barrier2
  | print
  | barrier3
  | done
  deriving DecidableEq

/-- The globals, the position of every section, the local variables
`nextNumDeer`, `nextHeight`, `nextDietPopularity` of the three computing
sections, and the output so far. `seen r` is instrumentation: the globals as
section `r` found them when it last read them (loop test or compute block). -/
structure Config where
  g : State
  pc : Role → Pc
  seen : Role → State
  nextNumDeer : Int
  nextHeight : ℚ
  nextDietPopularity : ℚ
  out : List Record

/-- The configuration in which `main` starts the four sections on globals
`s0`. -/
def initConfig (s0 : State) : Config :=
  { g := s0
    pc := fun _ => Pc.test
    seen := fun _ => s0
    nextNumDeer := 0
    nextHeight := 0
    nextDietPopularity := 0
    out := [] }

/-- Section `r` evaluates `NowYear < endYear`: it enters the loop body or
leaves the loop. The body of `Watcher` starts at the first barrier. -/
def testStep (endYear : Int) (r : Role) (c : Config) : Config :=
  { c with
    pc := Function.update c.pc r
      (if c.g.NowYear < endYear then (if r = Role.Watcher then Pc.barrier1 else Pc.compute)
        else Pc.done)
    seen := Function.update c.seen r c.g }

/-- Section `r` runs its compute block on the current globals and goes to the
first barrier. `DietPopularity` advances `seed` here. -/
def computeStep (L : Libc) (r : Role) (c : Config) : Config :=
  let c1 : Config :=
    match r with
    | .Graindeer => { c with nextNumDeer := GraindeerNext c.g.NowNumDeer c.g.NowHeight }
    | .Grain =>
      { c with
        nextHeight :=
          GrainNext L c.g.NowHeight c.g.NowTemp c.g.NowPrecip c.g.NowNumDeer
            c.g.NowDietPopularity }
    | .DietPopularity =>
      { c with
        nextDietPopularity :=
          DietPopularityNext c.g.NowMonth c.g.NowDietPopularity
            (Ranf L c.g.seed (-RANDOM_SOCIAL) RANDOM_SOCIAL).1
        g := { c.g with seed := (Ranf L c.g.seed (-RANDOM_SOCIAL) RANDOM_SOCIAL).2 } }
    | .Watcher => c
  { c1 with
    pc := Function.update c.pc r Pc.barrier1
    seen := Function.update c.seen r c.g }

/-- Section `r` assigns its local next value to its global and goes to the
second barrier. -/
def assignStep (r : Role) (c : Config) : Config :=
  let c1 : Config :=
    match r with
    | .Graindeer => { c with g := { c.g with NowNumDeer := c.nextNumDeer } }
    | .Grain => { c with g := { c.g with NowHeight := c.nextHeight } }
    | .DietPopularity => { c with g := { c.g with NowDietPopularity := c.nextDietPopularity } }
    | .Watcher => c
  { c1 with pc := Function.update c.pc r Pc.barrier2 }

/-- The block of `Watcher` between the second and the third barrier: print,
then advance the clock and the weather. -/
def printStep (L : Libc) (r : Role) (c : Config) : Config :=
  let c1 : Config :=
    match r with
    | .Watcher => { c with out := c.out ++ [WatcherPrint c.g], g := WatcherAdvance L c.g }
    | _ => c
  { c1 with pc := Function.update c.pc r Pc.barrier3 }

/-- One block of section `r`, when it is not waiting at a barrier and not out
of its loop. -/
def threadStep (L : Libc) (endYear : Int) (r : Role) (c : Config) : Option Config :=
  match c.pc r with
  | .test => some (testStep endYear r c)
  | .compute => some (computeStep L r c)
  | .assign => some (assignStep r c)
  | .print => some (printStep L r c)
  | _ => none

/-- The section waits at a `#pragma omp barrier`. -/
def atBarrier : Pc → Bool
  | .barrier1 => true
  | .barrier2 => true
  | .barrier3 => true
  | _ => false

/-- Where section `r` continues when the barrier it waits at is released:
`Watcher` has nothing to do between the first and the second barrier, the
other sections nothing between the second and the third. -/
def afterBarrier (r : Role) : Pc → Pc
  | .barrier1 => if r = Role.Watcher then Pc.barrier2 else Pc.assign
  | .barrier2 => if r = Role.Watcher then Pc.print else Pc.barrier3
  | .barrier3 => Pc.test
  | p => p

/-- All four sections wait at a barrier. -/
def allAtBarrier (pc : Role → Pc) : Bool :=
  atBarrier (pc Role.Graindeer) && atBarrier (pc Role.Grain) &&
    atBarrier (pc Role.DietPopularity) && atBarrier (pc Role.Watcher)

/-- Release of a barrier: when all four sections wait at a barrier, each
continues after the one it waits at. -/
def release (c : Config) : Option Config :=
  if allAtBarrier c.pc then some { c with pc := fun r => afterBarrier r (c.pc r) } else none

/-- One step of the concurrent program: a block of some section, or the release
of a barrier. -/
def Step (L : Libc) (endYear : Int) (c c' : Config) : Prop :=
  (∃ r, threadStep L endYear r c = some c') ∨ release c = some c'

/-- The configurations the concurrent program can reach from globals `s0`,
under any schedule. -/
inductive Reachable (L : Libc) (endYear : Int) (s0 : State) : Config → Prop where
  | init : Reachable L endYear s0 (initConfig s0)
  | step (c c' : Config) : Reachable L endYear s0 c → Step L endYear c c' →
      Reachable L endYear s0 c'

/-- All four sections have left their loops. -/
def terminated (c : Config) : Prop := ∀ r, c.pc r = Pc.done

/-- The records of the first `m` months of the sequential run from `s0`. -/
def recordsAfter (L : Libc) (s0 : State) : Nat → List Record
  | 0 => []
  | m + 1 => recordsAfter L s0 m ++ [(simCycle L (stateAfter L s0 m)).1]

/-- State `t` has the same eight state variables as `S`. -/
def agree (S t : State) : Prop := ∀ f, keeps f S t

/-- The configurations between the release of the third barrier and the
release of the first one, in a month that starts from globals `S`: sections
test the loop condition and compute. A section past its loop test has seen the
state variables of `S`; the globals are those of `S`, with `seed` advanced once
`DietPopularity` has drawn; a section at the first barrier holds the next value
computed from `S`. -/
structure PhaseA (L : Libc) (endYear : Int) (S : State) (c : Config) : Prop where
  pcs : ∀ r, c.pc r = Pc.test ∨
    (agree S (c.seen r) ∧
      ((c.pc r = Pc.done ∧ ¬ S.NowYear < endYear) ∨
        (S.NowYear < endYear ∧
          (c.pc r = Pc.barrier1 ∨ (c.pc r = Pc.compute ∧ r ≠ Role.Watcher)))))
  globals : c.g =
    { S with
      seed := if c.pc Role.DietPopularity = Pc.barrier1 then (L.rand_r S.seed).2 else S.seed }
  deer : c.pc Role.Graindeer = Pc.barrier1 →
    c.nextNumDeer = GraindeerNext S.NowNumDeer S.NowHeight
  grain : c.pc Role.Grain = Pc.barrier1 →
    c.nextHeight = GrainNext L S.NowHeight S.NowTemp S.NowPrecip S.NowNumDeer S.NowDietPopularity
  diet : c.pc Role.DietPopularity = Pc.barrier1 →
    c.nextDietPopularity =
      DietPopularityNext S.NowMonth S.NowDietPopularity
        (Ranf L S.seed (-RANDOM_SOCIAL) RANDOM_SOCIAL).1

/-- The configurations between the release of the first barrier and the
release of the second one: `Watcher` waits, the other sections assign. A
global is the next value once its section has assigned it and the value of `S`
before. -/
structure PhaseB (L : Libc) (endYear : Int) (S : State) (c : Config) : Prop where
  year : S.NowYear < endYear
  seen : ∀ r, agree S (c.seen r)
  watcher : c.pc Role.Watcher = Pc.barrier2
  pcs : ∀ r, r ≠ Role.Watcher → c.pc r = Pc.assign ∨ c.pc r = Pc.barrier2
  deer : c.nextNumDeer = GraindeerNext S.NowNumDeer S.NowHeight
  grain :
    c.nextHeight = GrainNext L S.NowHeight S.NowTemp S.NowPrecip S.NowNumDeer S.NowDietPopularity
  diet :
    c.nextDietPopularity =
      DietPopularityNext S.NowMonth S.NowDietPopularity
        (Ranf L S.seed (-RANDOM_SOCIAL) RANDOM_SOCIAL).1
  globals : c.g =
    { S with
      seed := (L.rand_r S.seed).2
      NowNumDeer :=
        if c.pc Role.Graindeer = Pc.barrier2 then GraindeerNext S.NowNumDeer S.NowHeight
        else S.NowNumDeer
      NowHeight :=
        if c.pc Role.Grain = Pc.barrier2 then
          GrainNext L S.NowHeight S.NowTemp S.NowPrecip S.NowNumDeer S.NowDietPopularity
        else S.NowHeight
      NowDietPopularity :=
        if c.pc Role.DietPopularity = Pc.barrier2 then
          DietPopularityNext S.NowMonth S.NowDietPopularity
            (Ranf L S.seed (-RANDOM_SOCIAL) RANDOM_SOCIAL).1
        else S.NowDietPopularity }

/-- The configurations between the release of the second barrier and the
release of the third one: the other sections wait, `Watcher` prints and
advances. `recs` is the output before this month. -/
structure PhaseC (L : Libc) (endYear : Int) (S : State) (recs : List Record) (c : Config) :
    Prop where
  year : S.NowYear < endYear
  seen : ∀ r, agree S (c.seen r)
  pcs : ∀ r, r ≠ Role.Watcher → c.pc r = Pc.barrier3
  watcher :
    (c.pc Role.Watcher = Pc.print ∧ c.g = assigned L S ∧ c.out = recs) ∨
      (c.pc Role.Watcher = Pc.barrier3 ∧ c.g = (simCycle L S).2 ∧
        c.out = recs ++ [(simCycle L S).1])

/-- The invariant of the concurrent program in month `m` (counted from 0) of a
run from globals `s0`: the loop condition held at the start of every earlier
month, and the configuration is in one of the three phases of month `m`, built
on the state the sequential run reaches after `m` months. -/
def Inv (L : Libc) (endYear : Int) (s0 : State) (m : Nat) (c : Config) : Prop :=
  (∀ j, j < m → (stateAfter L s0 j).NowYear < endYear) ∧
    ((PhaseA L endYear (stateAfter L s0 m) c ∧ c.out = recordsAfter L s0 m) ∨
      PhaseB L endYear (stateAfter L s0 m) c ∧ c.out = recordsAfter L s0 m ∨
      PhaseC L endYear (stateAfter L s0 m) (recordsAfter L s0 m) c)

/-! ## Two schedules -/

/-- The release of a barrier, as a function (used when all sections wait). -/
def released (c : Config) : Config :=
  { c with pc := fun r => afterBarrier r (c.pc r) }

/-- One month under the schedule that lets `Graindeer`, `Grain`,
`DietPopularity`, `Watcher` run in this order in every phase. -/
def lockstepMonth (L : Libc) (endYear : Int) (c : Config) : Config :=
  let c1 := testStep endYear Role.Graindeer c
  let c2 := testStep endYear Role.Grain c1
  let c3 := testStep endYear Role.DietPopularity c2
  let c4 := testStep endYear Role.Watcher c3
  let c5 := computeStep L Role.Graindeer c4
  let c6 := computeStep L Role.Grain c5
  let c7 := computeStep L Role.DietPopularity c6
  let c8 := released c7
  let c9 := assignStep Role.Graindeer c8
  let c10 := assignStep Role.Grain c9
  let c11 := assignStep Role.DietPopularity c10
  let c12 := released c11
  let c13 := printStep L Role.Watcher c12
  released c13

/-- One month under another schedule: `Watcher` tests first, `DietPopularity`
tests and computes before `Grain` and `Graindeer` have tested, and the
assignments run in the opposite order. -/
def reverseMonth (L : Libc) (endYear : Int) (c : Config) : Config :=
  let c1 := testStep endYear Role.Watcher c
  let c2 := testStep endYear Role.DietPopularity c1
  let c3 := computeStep L Role.DietPopularity c2
  let c4 := testStep endYear Role.Grain c3
  let c5 := computeStep L Role.Grain c4
  let c6 := testStep endYear Role.Graindeer c5
  let c7 := computeStep L Role.Graindeer c6
  let c8 := released c7
  let c9 := assignStep Role.DietPopularity c8
  let c10 := assignStep Role.Grain c9
  let c11 := assignStep Role.Graindeer c10
  let c12 := released c11
  let c13 := printStep L Role.Watcher c12
  released c13

/-- The four loop tests, in the order of `lockstepMonth`. -/
def lockstepExit (endYear : Int) (c : Config) : Config :=
  testStep endYear Role.Watcher
    (testStep endYear Role.DietPopularity
      (testStep endYear Role.Grain (testStep endYear Role.Graindeer c)))

/-- The four loop tests, in the order of `reverseMonth`. -/
def reverseExit (endYear : Int) (c : Config) : Config :=
  testStep endYear Role.Graindeer
    (testStep endYear Role.Grain
      (testStep endYear Role.DietPopularity (testStep endYear Role.Watcher c)))

/-- The run of `n` months under the first schedule, followed by the four loop
tests. -/
def lockstepRun (L : Libc) (endYear : Int) : Nat → Config → Config
  | 0, c => lockstepExit endYear c
  | n + 1, c => lockstepRun L endYear n (lockstepMonth L endYear c)

/-- The run of `n` months under the second schedule, followed by the four loop
tests. -/
def reverseRun (L : Libc) (endYear : Int) : Nat → Config → Config
  | 0, c => reverseExit endYear c
  | n + 1, c => reverseRun L endYear n (reverseMonth L endYear c)

/-! ## Basic facts about the embedding -/

theorem wrapInt_of_range (x : Int) (h1 : INT_MIN ≤ x) (h2 : x ≤ INT_MAX) : wrapInt x = x := by
  unfold INT_MIN at h1
  unfold INT_MAX at h2
  unfold wrapInt
  omega

theorem floatUlp_of_range (n k : Nat) (h1 : 2 ^ k ≤ n) (h2 : n < 2 ^ (k + 1)) :
    floatUlp n = 2 ^ (k - 23) := by
  unfold floatUlp
  rw [Nat.log2_eq_log_two, Nat.log_eq_of_pow_le_of_lt_pow h1 h2]

theorem floatUlp_of_lt (n : Nat) (h : n < 2 ^ 24) : floatUlp n = 1 := by
  unfold floatUlp
  by_cases h0 : n = 0
  · subst h0
    rw [Nat.log2_eq_log_two]
    simp
  · have : Nat.log2 n < 24 := (Nat.log2_lt h0).mpr h
    have e : Nat.log2 n - 23 = 0 := by omega
    rw [e]
    rfl

/-- Natural numbers up to `2^24` are `float` values. -/
theorem floatOfNat_exact (n : Nat) (h : n ≤ 16777216) : floatOfNat n = n := by
  by_cases hlt : n < 2 ^ 24
  · unfold floatOfNat
    simp [floatUlp_of_lt n hlt, Nat.mod_one]
  · have e : n = 16777216 := by norm_num at hlt; omega
    subst e
    unfold floatOfNat
    rw [floatUlp_of_range 16777216 24 (by norm_num) (by norm_num)]
    norm_num

/-- The conversion `(float) n` is exact for `|n| ≤ 2^24`. -/
theorem floatOfInt_exact (n : Int) (h1 : -16777216 ≤ n) (h2 : n ≤ 16777216) :
    floatOfInt n = (n : ℚ) := by
  unfold floatOfInt
  split_ifs with h0
  · rw [floatOfNat_exact _ (by omega)]
    have : ((n.toNat : Nat) : Int) = n := Int.toNat_of_nonneg h0
    exact_mod_cast this
  · rw [floatOfNat_exact _ (by omega)]
    have : (((-n).toNat : Nat) : Int) = -n := Int.toNat_of_nonneg (by omega)
    have h3 : (((-n).toNat : Nat) : ℚ) = -(n : ℚ) := by exact_mod_cast this
    rw [h3]
    ring

theorem floatOfInt_nonpos (n : Int) (h : n ≤ 0) : floatOfInt n ≤ 0 := by
  by_cases h0 : n = 0
  · subst h0
    rw [floatOfInt_exact 0 (by norm_num) (by norm_num)]
    norm_num
  · unfold floatOfInt
    rw [if_neg (by omega)]
    have : (0 : ℚ) ≤ ((floatOfNat (-n).toNat : Nat) : ℚ) := Nat.cast_nonneg _
    linarith

/-- The conversion rounds 16777217 down to `2^24` (a tie, to the even side). -/
theorem floatOfInt_16777217 : floatOfInt 16777217 = 16777216 := by
  have e : floatOfNat 16777217 = 16777216 := by
    unfold floatOfNat
    rw [floatUlp_of_range 16777217 24 (by norm_num) (by norm_num)]
    norm_num
  unfold floatOfInt
  rw [if_pos (by decide)]
  show ((floatOfNat 16777217 : Nat) : ℚ) = 16777216
  rw [e]
  norm_num

/-- The conversion rounds 16777219 up to 16777220 (a tie, to the even side). -/
theorem floatOfInt_16777219 : floatOfInt 16777219 = 16777220 := by
  have e : floatOfNat 16777219 = 16777220 := by
    unfold floatOfNat
    rw [floatUlp_of_range 16777219 24 (by norm_num) (by norm_num)]
    norm_num
  unfold floatOfInt
  rw [if_pos (by decide)]
  show ((floatOfNat 16777219 : Nat) : ℚ) = 16777220
  rw [e]
  norm_num

/-- The conversion rounds `INT_MAX` up to `2^31`. -/
theorem floatOfInt_INT_MAX : floatOfInt 2147483647 = 2147483648 := by
  have e : floatOfNat 2147483647 = 2147483648 := by
    unfold floatOfNat
    rw [floatUlp_of_range 2147483647 30 (by norm_num) (by norm_num)]
    norm_num
  unfold floatOfInt
  rw [if_pos (by decide)]
  show ((floatOfNat 2147483647 : Nat) : ℚ) = 2147483648
  rw [e]
  norm_num

/-- For `|n| ≤ 2^24` the tests of `Graindeer` compare the deer count itself. -/
theorem GraindeerNext_exact (n : Int) (h : ℚ) (h1 : -16777216 ≤ n) (h2 : n ≤ 16777216) :
    GraindeerNext n h =
      if (n : ℚ) > h then (if wrapInt (n - 1) < 0 then 0 else wrapInt (n - 1))
      else if (n : ℚ) < h then wrapInt (n + 1) else n := by
  unfold GraindeerNext
  rw [floatOfInt_exact n h1 h2]

theorem simCycle_NowNumDeer (L : Libc) (s : State) :
    (simCycle L s).2.NowNumDeer = GraindeerNext s.NowNumDeer s.NowHeight := rfl

theorem simCycle_NowHeight (L : Libc) (s : State) :
    (simCycle L s).2.NowHeight =
      GrainNext L s.NowHeight s.NowTemp s.NowPrecip s.NowNumDeer s.NowDietPopularity := rfl

theorem simCycle_NowDietPopularity (L : Libc) (s : State) :
    (simCycle L s).2.NowDietPopularity =
      DietPopularityNext s.NowMonth s.NowDietPopularity
        (Ranf L s.seed (-RANDOM_SOCIAL) RANDOM_SOCIAL).1 := rfl

theorem simCycle_clock (L : Libc) (s : State) :
    (simCycle L s).2.monthCount = wrapInt (s.monthCount + 1) ∧
    (simCycle L s).2.NowYear =
      (if wrapInt (s.NowMonth + 1) > 11 then wrapInt (s.NowYear + 1) else s.NowYear) ∧
    (simCycle L s).2.NowMonth =
      (if wrapInt (s.NowMonth + 1) > 11 then 0 else wrapInt (s.NowMonth + 1)) :=
  ⟨rfl, rfl, rfl⟩

/-- One step of `Graindeer` from a count in `0 .. INT_MAX - 1` stays in
`0 .. n + 1`. -/
theorem GraindeerNext_bounds (n : Int) (h : ℚ) (hn : 0 ≤ n) (hmax : n < INT_MAX) :
    0 ≤ GraindeerNext n h ∧ GraindeerNext n h ≤ n + 1 := by
  unfold INT_MAX at hmax
  have e1 : wrapInt (n - 1) = n - 1 :=
    wrapInt_of_range _ (by unfold INT_MIN; omega) (by unfold INT_MAX; omega)
  have e2 : wrapInt (n + 1) = n + 1 :=
    wrapInt_of_range _ (by unfold INT_MIN; omega) (by unfold INT_MAX; omega)
  unfold GraindeerNext
  simp only [e1, e2]
  split_ifs <;> omega

theorem stateAfter_NowNumDeer_bounds (L : Libc) (k : Nat) (hk : (k : Int) + 1 < INT_MAX) :
    0 ≤ (stateAfter L (mainInit L) k).NowNumDeer ∧
      (stateAfter L (mainInit L) k).NowNumDeer ≤ (k : Int) + 1 := by
  induction k with
  | zero =>
    show (0 : Int) ≤ 1 ∧ (1 : Int) ≤ ((0 : Nat) : Int) + 1
    exact ⟨by decide, by decide⟩
  | succ k ih =>
    have hk2 : (k : Int) + 1 < INT_MAX := by push_cast at hk; omega
    obtain ⟨h0, h1⟩ := ih hk2
    have hlt : (stateAfter L (mainInit L) k).NowNumDeer < INT_MAX := by push_cast at hk; omega
    have hb := GraindeerNext_bounds (stateAfter L (mainInit L) k).NowNumDeer
      (stateAfter L (mainInit L) k).NowHeight h0 hlt
    show 0 ≤ (simCycle L (stateAfter L (mainInit L) k)).2.NowNumDeer ∧
      (simCycle L (stateAfter L (mainInit L) k)).2.NowNumDeer ≤ ((k + 1 : Nat) : Int) + 1
    rw [simCycle_NowNumDeer]
    push_cast
    omega

theorem GrainNext_nonneg (L : Libc) (NowHeight NowTemp NowPrecip : ℚ) (NowNumDeer : Int)
    (NowDietPopularity : ℚ) :
    0 ≤ GrainNext L NowHeight NowTemp NowPrecip NowNumDeer NowDietPopularity := by
  unfold GrainNext
  simp only
  split_ifs with hneg
  · exact le_refl 0
  · exact not_lt.mp hneg

/-! ## C1: the deer count is never negative -/

/-- C1, as stated, fails at the top of the `int` range: with
`NowNumDeer = INT_MAX` and a grain height above it, `nextNumDeer++` wraps to
`INT_MIN`, which is negative. -/
theorem C1_counterexample :
    (0 : Int) ≤ 2147483647 ∧ (2147483647 : Int) ≤ INT_MAX ∧
      GraindeerNext 2147483647 3000000000 = -2147483648 ∧
      GraindeerNext 2147483647 3000000000 < 0 := by
  have e : GraindeerNext 2147483647 3000000000 = -2147483648 := by
    unfold GraindeerNext
    rw [floatOfInt_INT_MAX]
    unfold wrapInt
    norm_num
  refine ⟨by decide, by decide, e, ?_⟩
  rw [e]
  decide

/-- C1 (amended): for every deer count `0 ≤ NowNumDeer < INT_MAX` and every
grain height the next deer count computed by `Graindeer` is `≥ 0`; and in a
run started by `main` the deer count is `≥ 0` after every number `k` of
months with `k + 1 < INT_MAX`. -/
theorem C1_deer_nonneg (L : Libc) (NowNumDeer : Int) (NowHeight : ℚ) (k : Nat)
    (hn : 0 ≤ NowNumDeer) (hmax : NowNumDeer < INT_MAX) (hk : (k : Int) + 1 < INT_MAX) :
    0 ≤ GraindeerNext NowNumDeer NowHeight ∧
      0 ≤ (stateAfter L (mainInit L) k).NowNumDeer :=
  ⟨(GraindeerNext_bounds NowNumDeer NowHeight hn hmax).1,
    (stateAfter_NowNumDeer_bounds L k hk).1⟩

theorem C1_deer_nonneg_witness :
    (0 : Int) ≤ 1 ∧ (1 : Int) < INT_MAX ∧ ((72 : Nat) : Int) + 1 < INT_MAX ∧
      (0 ≤ GraindeerNext 1 1 ∧ 0 ≤ (stateAfter sampleLibc (mainInit sampleLibc) 72).NowNumDeer) :=
  ⟨by decide, by decide, by decide,
    C1_deer_nonneg sampleLibc 1 1 72 (by decide) (by decide) (by decide)⟩

/-! ## C2: the grain height is never negative -/

/-- C2: for every current height, temperature, precipitation, deer count and
popularity the next height computed by `Grain` is `≥ 0`, and the grain height
is `≥ 0` after every number of months of a run started by `main`. -/
theorem C2_height_nonneg (L : Libc) (s : State) (k : Nat) :
    0 ≤ GrainNext L s.NowHeight s.NowTemp s.NowPrecip s.NowNumDeer s.NowDietPopularity ∧
      0 ≤ (stateAfter L (mainInit L) k).NowHeight := by
  refine ⟨GrainNext_nonneg L _ _ _ _ _, ?_⟩
  cases k with
  | zero => show (0 : ℚ) ≤ 1; norm_num
  | succ k =>
    show 0 ≤ (simCycle L (stateAfter L (mainInit L) k)).2.NowHeight
    rw [simCycle_NowHeight]
    exact GrainNext_nonneg L _ _ _ _ _

/-! ## C3: run length and final clock -/

/-- The clock after one month, from a month in `0 .. 11` and a year below
`INT_MAX`: the month moves to the next one, and the year moves with it when the
month was 11. -/
theorem simCycle_clock_of_valid (L : Libc) (s : State) (hm0 : 0 ≤ s.NowMonth)
    (hm1 : s.NowMonth ≤ 11) (hy0 : INT_MIN ≤ s.NowYear) (hy1 : s.NowYear < INT_MAX) :
    (simCycle L s).2.NowYear = (if s.NowMonth = 11 then s.NowYear + 1 else s.NowYear) ∧
    (simCycle L s).2.NowMonth = (if s.NowMonth = 11 then 0 else s.NowMonth + 1) := by
  obtain ⟨-, hy, hm⟩ := simCycle_clock L s
  have e1 : wrapInt (s.NowMonth + 1) = s.NowMonth + 1 :=
    wrapInt_of_range _ (by unfold INT_MIN; omega) (by unfold INT_MAX; omega)
  have e2 : wrapInt (s.NowYear + 1) = s.NowYear + 1 :=
    wrapInt_of_range _ (by unfold INT_MIN at *; omega) (by unfold INT_MAX at *; omega)
  rw [hy, hm, e1, e2]
  constructor <;> split_ifs <;> omega

theorem stateAfter_shift (L : Libc) (s : State) (n : Nat) :
    stateAfter L (simCycle L s).2 n = stateAfter L s (n + 1) := by
  induction n with
  | zero => rfl
  | succ n ih =>
    show (simCycle L (stateAfter L (simCycle L s).2 n)).2 =
      (simCycle L (stateAfter L s (n + 1))).2
    rw [ih]

/-- With `n` months left on the clock and at least `n` units of fuel the loop
returns after exactly `n` months, with the clock at January of `endYear`. -/
theorem runLoop_spec (L : Libc) (endYear : Int) (hE : endYear ≤ INT_MAX) :
    ∀ (n : Nat) (s : State) (fuel : Nat), INT_MIN ≤ s.NowYear →
      ((s.NowYear < endYear ∧ 0 ≤ s.NowMonth ∧ s.NowMonth ≤ 11) ∨
        (s.NowYear = endYear ∧ s.NowMonth = 0)) →
      (n : Int) = 12 * (endYear - s.NowYear) - s.NowMonth → n ≤ fuel →
      ∃ recs t, runLoop L endYear fuel s = some (recs, t) ∧ recs.length = n ∧
        t.NowYear = endYear ∧ t.NowMonth = 0 ∧ t = stateAfter L s n := by
  intro n
  induction n with
  | zero =>
    intro s fuel _ hinv hn _
    have hdone : s.NowYear = endYear ∧ s.NowMonth = 0 := by
      rcases hinv with ⟨h1, h2, h3⟩ | h
      · push_cast at hn; omega
      · exact h
    have hguard : ¬ s.NowYear < endYear := by omega
    refine ⟨[], s, ?_, rfl, hdone.1, hdone.2, rfl⟩
    cases fuel with
    | zero => simp [runLoop, hguard]
    | succ f => simp [runLoop, hguard]
  | succ n ih =>
    intro s fuel hy0 hinv hn hfuel
    have hrun : s.NowYear < endYear ∧ 0 ≤ s.NowMonth ∧ s.NowMonth ≤ 11 := by
      rcases hinv with h | ⟨h1, h2⟩
      · exact h
      · push_cast at hn; omega
    obtain ⟨hlt, hm0, hm1⟩ := hrun
    obtain ⟨f, rfl⟩ : ∃ f, fuel = f + 1 := ⟨fuel - 1, by omega⟩
    obtain ⟨hy, hm⟩ := simCycle_clock_of_valid L s hm0 hm1 hy0 (by omega)
    have hy0next : INT_MIN ≤ (simCycle L s).2.NowYear := by
      rw [hy]; split_ifs <;> omega
    have hinvnext : ((simCycle L s).2.NowYear < endYear ∧ 0 ≤ (simCycle L s).2.NowMonth ∧
        (simCycle L s).2.NowMonth ≤ 11) ∨
        ((simCycle L s).2.NowYear = endYear ∧ (simCycle L s).2.NowMonth = 0) := by
      rw [hy, hm]; split_ifs <;> omega
    have hnnext : (n : Int) =
        12 * (endYear - (simCycle L s).2.NowYear) - (simCycle L s).2.NowMonth := by
      rw [hy, hm]; push_cast at hn; split_ifs <;> omega
    obtain ⟨recs, t, hrec, hlen, hty, htm, hst⟩ :=
      ih (simCycle L s).2 f hy0next hinvnext hnnext (by omega)
    refine ⟨(simCycle L s).1 :: recs, t, ?_, by simp [hlen], hty, htm, ?_⟩
    · simp [runLoop, hlt, hrec]
    · rw [hst, stateAfter_shift]

/-- The loop from January of `START_YEAR ≤ endYear`, with enough fuel. -/
theorem runLoop_from_january (L : Libc) (START_YEAR endYear : Int) (s : State) (fuel : Nat)
    (hs : s.NowYear = START_YEAR) (hm : s.NowMonth = 0) (hle : START_YEAR ≤ endYear)
    (hlo : INT_MIN ≤ START_YEAR) (hhi : endYear ≤ INT_MAX)
    (hfuel : (endYear - START_YEAR) * 12 ≤ (fuel : Int)) :
    ∃ recs t, runLoop L endYear fuel s = some (recs, t) ∧
      (recs.length : Int) = (endYear - START_YEAR) * 12 ∧
      t.NowYear = endYear ∧ t.NowMonth = 0 := by
  have hinv : (s.NowYear < endYear ∧ 0 ≤ s.NowMonth ∧ s.NowMonth ≤ 11) ∨
      (s.NowYear = endYear ∧ s.NowMonth = 0) := by omega
  have hn : (((endYear - START_YEAR) * 12).toNat : Int) =
      12 * (endYear - s.NowYear) - s.NowMonth := by
    rw [Int.toNat_of_nonneg (by omega)]; omega
  obtain ⟨recs, t, h1, h2, h3, h4, -⟩ :=
    runLoop_spec L endYear hhi _ s fuel (by omega) hinv hn (by omega)
  refine ⟨recs, t, h1, ?_, h3, h4⟩
  rw [h2, Int.toNat_of_nonneg (by omega)]

/-- C3: started with `NowYear = START_YEAR ≤ endYear` and `NowMonth = 0`, the
loop (given enough fuel) returns after exactly `(endYear - START_YEAR) * 12`
iterations, one record each, with `NowYear = endYear` and `NowMonth = 0`. From
the state set up by `main`, `endYear = 2020` gives 12 records and the clock
2020 / 0, and `END_YEAR = 2025` gives 72 records. -/
theorem C3_run_length (L : Libc) (START_YEAR endYear : Int) (s : State) (fuel : Nat)
    (hs : s.NowYear = START_YEAR) (hm : s.NowMonth = 0) (hle : START_YEAR ≤ endYear)
    (hlo : INT_MIN ≤ START_YEAR) (hhi : endYear ≤ INT_MAX)
    (hfuel : (endYear - START_YEAR) * 12 ≤ (fuel : Int)) :
    (∃ recs t, runLoop L endYear fuel s = some (recs, t) ∧
        (recs.length : Int) = (endYear - START_YEAR) * 12 ∧
        t.NowYear = endYear ∧ t.NowMonth = 0) ∧
      (∃ recs t, runLoop L 2020 12 (mainInit L) = some (recs, t) ∧ recs.length = 12 ∧
        t.NowYear = 2020 ∧ t.NowMonth = 0) ∧
      (∃ recs t, runLoop L END_YEAR 72 (mainInit L) = some (recs, t) ∧ recs.length = 72 ∧
        t.NowYear = END_YEAR ∧ t.NowMonth = 0) := by
  refine ⟨runLoop_from_january L START_YEAR endYear s fuel hs hm hle hlo hhi hfuel, ?_, ?_⟩
  · obtain ⟨recs, t, h1, h2, h3, h4⟩ :=
      runLoop_from_january L 2019 2020 (mainInit L) 12 rfl rfl (by decide) (by decide)
        (by decide) (by decide)
    refine ⟨recs, t, h1, ?_, h3, h4⟩
    have h5 : (recs.length : Int) = 12 := by rw [h2]; decide
    exact_mod_cast h5
  · obtain ⟨recs, t, h1, h2, h3, h4⟩ :=
      runLoop_from_january L 2019 END_YEAR (mainInit L) 72 rfl rfl (by decide) (by decide)
        (by decide) (by decide)
    refine ⟨recs, t, h1, ?_, h3, h4⟩
    have h5 : (recs.length : Int) = 72 := by rw [h2]; decide
    exact_mod_cast h5

theorem C3_run_length_witness :
    (mainInit sampleLibc).NowYear = 2019 ∧ (mainInit sampleLibc).NowMonth = 0 ∧
      ((∃ recs t, runLoop sampleLibc 2020 12 (mainInit sampleLibc) = some (recs, t) ∧
          (recs.length : Int) = (2020 - 2019) * 12 ∧ t.NowYear = 2020 ∧ t.NowMonth = 0) ∧
        (∃ recs t, runLoop sampleLibc 2020 12 (mainInit sampleLibc) = some (recs, t) ∧
          recs.length = 12 ∧ t.NowYear = 2020 ∧ t.NowMonth = 0) ∧
        (∃ recs t, runLoop sampleLibc END_YEAR 72 (mainInit sampleLibc) = some (recs, t) ∧
          recs.length = 72 ∧ t.NowYear = END_YEAR ∧ t.NowMonth = 0)) :=
  ⟨rfl, rfl,
    C3_run_length sampleLibc 2019 2020 (mainInit sampleLibc) 12 rfl rfl (by decide) (by decide)
      (by decide) (by decide)⟩

/-! ## C4: the seasonal dip of `DietPopularity` -/

/-- C4 (the code at the failing input): in January (`NowMonth = 0`), with
popularity 20 and noise 0, the value before the dip is 20 and `DietPopularity`
computes 19.5; and in every month the 2.5% dip is applied, because the guard
`NowMonth >= 4 || NowMonth <= 6` holds for every month. -/
theorem C4_dip_every_month :
    DietPopularityBeforeDip 0 20 0 = 20 ∧ DietPopularityNext 0 20 0 = 39 / 2 ∧
      ∀ (NowMonth : Int) (NowDietPopularity noise : ℚ),
        DietPopularityNext NowMonth NowDietPopularity noise =
          DietPopularityBeforeDip NowMonth NowDietPopularity noise -
            DietPopularityBeforeDip NowMonth NowDietPopularity noise * (25 / 1000) := by
  refine ⟨?_, ?_, ?_⟩
  · unfold DietPopularityBeforeDip; norm_num
  · unfold DietPopularityNext DietPopularityBeforeDip; norm_num
  · intro NowMonth NowDietPopularity noise
    have hguard : NowMonth ≥ 4 ∨ NowMonth ≤ 6 := by omega
    unfold DietPopularityNext
    simp only [hguard, if_true]

/-! ## C5: the increment of `Graindeer` -/

/-- C5, as stated, fails when the deer count equals the grain height (the
state set up by `main`: 1 deer, height 1): the count stays 1. It fails for
16777219 deer and height 16777220, where the count is below the height but
`(float)16777219` is 16777220, so neither branch runs and the count stays. It
also fails at `INT_MAX`, where the increment wraps. -/
theorem C5_counterexample :
    ((1 : Int) : ℚ) ≤ 1 ∧ GraindeerNext 1 1 = 1 ∧ GraindeerNext 1 1 ≠ 1 + 1 ∧
      ((16777219 : Int) : ℚ) ≤ 16777220 ∧ GraindeerNext 16777219 16777220 = 16777219 ∧
      GraindeerNext 16777219 16777220 ≠ 16777219 + 1 ∧
      ((2147483647 : Int) : ℚ) ≤ 3000000000 ∧
      GraindeerNext 2147483647 3000000000 ≠ 2147483647 + 1 := by
  have e1 : GraindeerNext 1 1 = 1 := by
    rw [GraindeerNext_exact 1 1 (by decide) (by decide)]
    norm_num
  have e2 : GraindeerNext 2147483647 3000000000 = -2147483648 := by
    unfold GraindeerNext
    rw [floatOfInt_INT_MAX]
    unfold wrapInt
    norm_num
  have e3 : GraindeerNext 16777219 16777220 = 16777219 := by
    unfold GraindeerNext
    rw [floatOfInt_16777219]
    norm_num
  refine ⟨by norm_num, e1, ?_, by norm_num, e3, ?_, by norm_num, ?_⟩
  · rw [e1]; decide
  · rw [e3]; decide
  · rw [e2]; decide

/-- The two cases of `Graindeer` in which the converted deer count does not
exceed the grain height. -/
theorem GraindeerNext_of_le (n : Int) (h : ℚ) (hlo : INT_MIN ≤ n) (hle : floatOfInt n ≤ h) :
    (floatOfInt n = h → GraindeerNext n h = n) ∧
      (floatOfInt n < h → n < INT_MAX → GraindeerNext n h = n + 1) := by
  have hnot : ¬ floatOfInt n > h := not_lt.mpr hle
  constructor
  · intro heq
    unfold GraindeerNext
    rw [if_neg hnot, if_neg (by rw [heq]; exact lt_irrefl _)]
  · intro hlt hhi
    have e : wrapInt (n + 1) = n + 1 :=
      wrapInt_of_range _ (by unfold INT_MIN at *; omega) (by unfold INT_MAX at *; omega)
    unfold GraindeerNext
    rw [if_neg hnot, if_pos hlt, e]

/-- C5 (amended): `Graindeer` compares the deer count after converting it to
`float`; the conversion is exact for `|NowNumDeer| ≤ 2^24 = 16777216`. For
every deer count (an `int`) whose converted value does not exceed the grain
height, the next deer count is `NowNumDeer` when the converted value equals the
height, and `NowNumDeer + 1` when it is strictly below the height and
`NowNumDeer < INT_MAX`. -/
theorem C5_increment (NowNumDeer : Int) (NowHeight : ℚ) (hlo : INT_MIN ≤ NowNumDeer)
    (hle : floatOfInt NowNumDeer ≤ NowHeight) :
    (floatOfInt NowNumDeer = NowHeight → GraindeerNext NowNumDeer NowHeight = NowNumDeer) ∧
      (floatOfInt NowNumDeer < NowHeight → NowNumDeer < INT_MAX →
        GraindeerNext NowNumDeer NowHeight = NowNumDeer + 1) ∧
      (-16777216 ≤ NowNumDeer → NowNumDeer ≤ 16777216 →
        floatOfInt NowNumDeer = (NowNumDeer : ℚ)) :=
  ⟨(GraindeerNext_of_le NowNumDeer NowHeight hlo hle).1,
    (GraindeerNext_of_le NowNumDeer NowHeight hlo hle).2,
    floatOfInt_exact NowNumDeer⟩

theorem C5_increment_witness :
    INT_MIN ≤ 1 ∧ floatOfInt 1 ≤ 2 ∧ floatOfInt 1 < 2 ∧
      (1 : Int) < INT_MAX ∧ GraindeerNext 1 2 = 1 + 1 ∧ floatOfInt 1 = ((1 : Int) : ℚ) := by
  have e : floatOfInt 1 = ((1 : Int) : ℚ) := floatOfInt_exact 1 (by decide) (by decide)
  have hlt : floatOfInt 1 < 2 := by rw [e]; norm_num
  have h := C5_increment 1 2 (by decide) hlt.le
  exact ⟨by decide, hlt.le, hlt, by decide, h.2.1 hlt (by decide),
    h.2.2 (by decide) (by decide)⟩

/-! ## C6: the decrement of `Graindeer` -/

/-- A deer count whose converted value is above a non-negative grain height
drops by exactly one. -/
theorem GraindeerNext_of_exceeds (p : Int) (h : ℚ) (hp : p ≤ INT_MAX) (hh : 0 ≤ h)
    (hgt : floatOfInt p > h) : GraindeerNext p h = p - 1 ∧ 1 ≤ p := by
  have hpos : (0 : ℚ) < floatOfInt p := lt_of_le_of_lt hh hgt
  have hp1 : 1 ≤ p := by
    by_contra hneg
    have := floatOfInt_nonpos p (by omega)
    linarith
  have e : wrapInt (p - 1) = p - 1 :=
    wrapInt_of_range _ (by unfold INT_MIN; omega) (by unfold INT_MAX at *; omega)
  refine ⟨?_, hp1⟩
  unfold GraindeerNext
  rw [if_pos hgt, e]
  simp only
  rw [if_neg (by omega)]

theorem deerRun_of_exceeds (hs : List ℚ) :
    ∀ p : Int, 0 ≤ p → p ≤ INT_MAX → exceedsThroughout p hs →
      (hs.length : Int) ≤ p ∧ deerRun p hs = p - hs.length := by
  induction hs with
  | nil =>
    intro p hp0 _ _
    exact ⟨by simpa using hp0, by simp [deerRun]⟩
  | cons h hs ih =>
    intro p _ hp hex
    obtain ⟨hh, hgt, hrest⟩ := hex
    obtain ⟨e, hp1⟩ := GraindeerNext_of_exceeds p h hp hh hgt
    rw [e] at hrest
    obtain ⟨hlen, hrun⟩ := ih (p - 1) (by omega) (by omega) hrest
    refine ⟨by simp only [List.length_cons]; push_cast; omega, ?_⟩
    show deerRun (GraindeerNext p h) hs = p - ((h :: hs).length : Int)
    rw [e, hrun]
    simp only [List.length_cons]
    push_cast
    omega

/-- With no deer and a grain height not above 0 the next deer count is 0. -/
theorem GraindeerNext_zero (h0 : ℚ) (hzero : h0 ≤ 0) : GraindeerNext 0 h0 = 0 := by
  have e : wrapInt (0 - 1) = -1 := by decide
  rw [GraindeerNext_exact 0 h0 (by decide) (by decide)]
  by_cases hlt : ((0 : Int) : ℚ) > h0
  · rw [if_pos hlt, e]
    rfl
  · have hnot : ¬ ((0 : Int) : ℚ) < h0 := by
      push_cast
      exact not_lt.mpr hzero
    rw [if_neg hlt, if_neg hnot]

/-- C6, as stated, fails for 16777217 deer and grain height 16777216: the
count exceeds the non-negative height, but `(float)16777217` is 16777216, so
neither branch of `Graindeer` runs and the next count is again 16777217, not
one less. -/
theorem C6_counterexample :
    (16777217 : Int) ≤ INT_MAX ∧ (0 : ℚ) ≤ 16777216 ∧
      ((16777217 : Int) : ℚ) > 16777216 ∧
      GraindeerNext 16777217 16777216 = 16777217 ∧
      ¬ (GraindeerNext 16777217 16777216 < 16777217) ∧
      GraindeerNext 16777217 16777216 ≠ 16777217 - 1 := by
  have e : GraindeerNext 16777217 16777216 = 16777217 := by
    unfold GraindeerNext
    rw [floatOfInt_16777217]
    norm_num
  refine ⟨by decide, by norm_num, by norm_num, e, ?_, ?_⟩
  · rw [e]; decide
  · rw [e]; decide

/-- C6 (amended): `Graindeer` compares the deer count after converting it to
`float`; the conversion is exact for counts up to `2^24 = 16777216`. In a month
in which the converted deer count `p` exceeds the non-negative grain height the
next count is exactly `p - 1`, strictly smaller; over `k` consecutive such
months (the heights `h :: hs`, `k` their number) `k ≤ p` and the count falls to
`p - k`; and with no deer and a grain height not above 0 the next count is
again 0. -/
theorem C6_decrement (p : Int) (h : ℚ) (hs : List ℚ) (h0 : ℚ) (hp : p ≤ INT_MAX)
    (hrun : exceedsThroughout p (h :: hs)) (hzero : h0 ≤ 0) :
    GraindeerNext p h = p - 1 ∧ GraindeerNext p h < p ∧
      ((h :: hs).length : Int) ≤ p ∧
      deerRun p (h :: hs) = p - ((h :: hs).length : Int) ∧
      GraindeerNext 0 h0 = 0 ∧
      (∀ n : Int, -16777216 ≤ n → n ≤ 16777216 → floatOfInt n = (n : ℚ)) := by
  obtain ⟨e, hp1⟩ := GraindeerNext_of_exceeds p h hp hrun.1 hrun.2.1
  obtain ⟨hlen, hfall⟩ := deerRun_of_exceeds (h :: hs) p (by omega) hp hrun
  exact ⟨e, by rw [e]; omega, hlen, hfall, GraindeerNext_zero h0 hzero, floatOfInt_exact⟩

theorem C6_decrement_witness :
    (3 : Int) ≤ INT_MAX ∧ exceedsThroughout 3 [2, 1, 0] ∧ (0 : ℚ) ≤ 0 ∧
      (GraindeerNext 3 2 = 3 - 1 ∧ GraindeerNext 3 2 < 3 ∧
        (([2, 1, 0] : List ℚ).length : Int) ≤ 3 ∧
        deerRun 3 [2, 1, 0] = 3 - (([2, 1, 0] : List ℚ).length : Int) ∧
        GraindeerNext 0 0 = 0) := by
  have e3 : GraindeerNext 3 2 = 2 := by
    rw [GraindeerNext_exact 3 2 (by decide) (by decide)]
    unfold wrapInt
    norm_num
  have e2 : GraindeerNext 2 1 = 1 := by
    rw [GraindeerNext_exact 2 1 (by decide) (by decide)]
    unfold wrapInt
    norm_num
  have f3 : floatOfInt 3 = 3 := by
    rw [floatOfInt_exact 3 (by decide) (by decide)]; norm_num
  have f2 : floatOfInt 2 = 2 := by
    rw [floatOfInt_exact 2 (by decide) (by decide)]; norm_num
  have f1 : floatOfInt 1 = 1 := by
    rw [floatOfInt_exact 1 (by decide) (by decide)]; norm_num
  have hex : exceedsThroughout 3 [2, 1, 0] := by
    simp only [exceedsThroughout, e3, e2, f3, f2, f1]
    norm_num
  have h := C6_decrement 3 2 [1, 0] 0 (by decide) hex (le_refl 0)
  exact ⟨by decide, hex, le_refl 0, h.1, h.2.1, h.2.2.1, h.2.2.2.1, h.2.2.2.2.1⟩

/-! ## C7: the range of the `float` overload of `Ranf` -/

/-- The draw `r = RAND_MAX` makes `Ranf` return `high`. -/
theorem RanfValue_top (RAND_MAX : Nat) (low high : ℚ) (hR : 0 < RAND_MAX) :
    RanfValue RAND_MAX RAND_MAX low high = high := by
  have hR2 : (RAND_MAX : ℚ) ≠ 0 := by exact_mod_cast hR.ne.symm
  unfold RanfValue
  field_simp

/-- C7, as stated, fails for the draw `r = RAND_MAX`: `Ranf( seedp, 0, 1 )`
returns the upper bound 1. -/
theorem C7_counterexample :
    (0 : ℚ) < 1 ∧ (2147483647 : Nat) ≤ 2147483647 ∧
      RanfValue 2147483647 2147483647 0 1 = 1 ∧
      ¬ (RanfValue 2147483647 2147483647 0 1 < 1) := by
  have e : RanfValue 2147483647 2147483647 0 1 = 1 :=
    RanfValue_top 2147483647 0 1 (by decide)
  refine ⟨by norm_num, le_refl _, e, ?_⟩
  rw [e]
  exact lt_irrefl 1

/-- The result of the `float` overload of `Ranf` lies in `[low, high]` and
reaches `high` exactly for the draw `RAND_MAX`. -/
theorem RanfValue_bounds (RAND_MAX r : Nat) (low high : ℚ) (hR : 0 < RAND_MAX)
    (hlt : low < high) (hr : r ≤ RAND_MAX) :
    low ≤ RanfValue RAND_MAX r low high ∧ RanfValue RAND_MAX r low high ≤ high ∧
      (RanfValue RAND_MAX r low high = high ↔ r = RAND_MAX) ∧
      (r < RAND_MAX → RanfValue RAND_MAX r low high < high) := by
  have hRq : (0 : ℚ) < (RAND_MAX : ℚ) := by exact_mod_cast hR
  have hd : 0 < high - low := sub_pos.mpr hlt
  have hrq : (r : ℚ) ≤ (RAND_MAX : ℚ) := by exact_mod_cast hr
  have hr0 : (0 : ℚ) ≤ (r : ℚ) := Nat.cast_nonneg r
  have key : RanfValue RAND_MAX r low high =
      high - ((RAND_MAX : ℚ) - (r : ℚ)) * (high - low) / (RAND_MAX : ℚ) := by
    unfold RanfValue
    field_simp
    ring
  have hlow : low ≤ RanfValue RAND_MAX r low high := by
    unfold RanfValue
    have : 0 ≤ (r : ℚ) * (high - low) / (RAND_MAX : ℚ) :=
      div_nonneg (mul_nonneg hr0 hd.le) hRq.le
    linarith
  have hgap : 0 ≤ ((RAND_MAX : ℚ) - (r : ℚ)) * (high - low) / (RAND_MAX : ℚ) :=
    div_nonneg (mul_nonneg (sub_nonneg.mpr hrq) hd.le) hRq.le
  have hstrict : r < RAND_MAX → RanfValue RAND_MAX r low high < high := by
    intro hlt2
    have hrq2 : (r : ℚ) < (RAND_MAX : ℚ) := by exact_mod_cast hlt2
    have : 0 < ((RAND_MAX : ℚ) - (r : ℚ)) * (high - low) / (RAND_MAX : ℚ) :=
      div_pos (mul_pos (sub_pos.mpr hrq2) hd) hRq
    rw [key]
    linarith
  refine ⟨hlow, by rw [key]; linarith, ⟨?_, ?_⟩, hstrict⟩
  · intro heq
    by_contra hne
    have := hstrict (lt_of_le_of_ne hr hne)
    rw [heq] at this
    exact lt_irrefl _ this
  · intro heq
    rw [heq]
    exact RanfValue_top RAND_MAX low high hR

/-- C7 (amended): for `low < high` and a draw `0 ≤ r ≤ RAND_MAX` the result `x`
of the `float` overload of `Ranf` satisfies `low ≤ x ≤ high`; `x = high`
exactly when `r = RAND_MAX`, and `x < high` for every `r < RAND_MAX`. -/
theorem C7_Ranf_range (RAND_MAX r : Nat) (low high : ℚ) (hR : 0 < RAND_MAX)
    (hlt : low < high) (hr : r ≤ RAND_MAX) :
    low ≤ RanfValue RAND_MAX r low high ∧ RanfValue RAND_MAX r low high ≤ high ∧
      (RanfValue RAND_MAX r low high = high ↔ r = RAND_MAX) ∧
      (r < RAND_MAX → RanfValue RAND_MAX r low high < high) :=
  RanfValue_bounds RAND_MAX r low high hR hlt hr

theorem C7_Ranf_range_witness :
    0 < 2147483647 ∧ (-5 : ℚ) < 5 ∧ 1000 ≤ 2147483647 ∧
      (-5 ≤ RanfValue 2147483647 1000 (-5) 5 ∧ RanfValue 2147483647 1000 (-5) 5 ≤ 5 ∧
        (RanfValue 2147483647 1000 (-5) 5 = 5 ↔ 1000 = 2147483647) ∧
        (1000 < 2147483647 → RanfValue 2147483647 1000 (-5) 5 < 5)) :=
  ⟨by decide, by norm_num, by decide,
    C7_Ranf_range 2147483647 1000 (-5) 5 (by decide) (by norm_num) (by decide)⟩

/-! ## C8: the range of the `int` overload of `Ranf` -/

/-- For `ilow ≤ ihigh` the `int` overload of `Ranf` never returns less than
`ilow`, and never more than `ihigh` when `ihigh` is not negative. -/
theorem RanfIntValue_range (RAND_MAX r : Nat) (ilow ihigh : Int) (hR : 0 < RAND_MAX)
    (hle : ilow ≤ ihigh) (hr : r ≤ RAND_MAX) :
    ilow ≤ RanfIntValue RAND_MAX r ilow ihigh ∧
      (0 ≤ ihigh → RanfIntValue RAND_MAX r ilow ihigh ≤ ihigh) := by
  have hleq : (ilow : ℚ) ≤ (ihigh : ℚ) := by exact_mod_cast hle
  have hlt : (ilow : ℚ) < (ihigh : ℚ) + 9999 / 10000 := by linarith
  obtain ⟨h1, h2, -, -⟩ :=
    RanfValue_bounds RAND_MAX r (ilow : ℚ) ((ihigh : ℚ) + 9999 / 10000) hR hlt hr
  unfold RanfIntValue toIntTrunc
  simp only
  split_ifs with hx
  · refine ⟨Int.le_floor.mpr h1, fun _ => ?_⟩
    have : ⌊RanfValue RAND_MAX r (ilow : ℚ) ((ihigh : ℚ) + 9999 / 10000)⌋ < ihigh + 1 := by
      rw [Int.floor_lt]
      push_cast
      linarith
    omega
  · refine ⟨?_, fun h0 => ?_⟩
    · have : (ilow : ℚ) ≤ (⌈RanfValue RAND_MAX r (ilow : ℚ) ((ihigh : ℚ) + 9999 / 10000)⌉ : ℚ) :=
        le_trans h1 (Int.le_ceil _)
      exact_mod_cast this
    · rw [Int.ceil_le]
      have h0q : (0 : ℚ) ≤ (ihigh : ℚ) := by exact_mod_cast h0
      linarith [not_le.mp hx]

/-- C8 (the code at the failing input): with `ilow = ihigh = -3` and the draw
`r = RAND_MAX` the `float` value is `-2.0001`, and the conversion to `int`
truncates it to `-2`, which is above `ihigh`; a draw from the middle of the
range (`r = 1073741824`) gives `-2` as well. -/
theorem C8_negative_bounds :
    RanfValue 2147483647 2147483647 (-3) (-3 + 9999 / 10000) = -20001 / 10000 ∧
      RanfIntValue 2147483647 2147483647 (-3) (-3) = -2 ∧
      RanfIntValue 2147483647 1073741824 (-3) (-3) = -2 ∧ ¬ ((-2 : Int) ≤ -3) := by
  have e : RanfValue 2147483647 2147483647 (-3) (-3 + 9999 / 10000) = -20001 / 10000 := by
    rw [RanfValue_top _ _ _ (by decide)]
    norm_num
  refine ⟨e, ?_, ?_, by decide⟩
  · unfold RanfIntValue toIntTrunc
    simp only [Int.cast_neg, Int.cast_ofNat]
    rw [e, if_neg (by norm_num), Int.ceil_eq_iff]
    norm_num
  · unfold RanfIntValue toIntTrunc
    simp only [Int.cast_neg, Int.cast_ofNat]
    have hneg : ¬ (0 ≤ RanfValue 2147483647 1073741824 (-3) (-3 + 9999 / 10000)) := by
      unfold RanfValue
      norm_num
    rw [if_neg hneg, Int.ceil_eq_iff]
    unfold RanfValue
    norm_num

/-! ## C9: the clock -/

/-- One advance of the clock by `Watcher`, from a month in `0 .. 11`, a year
below `INT_MAX` and a month counter below `INT_MAX`. -/
theorem WatcherAdvance_clock (L : Libc) (s : State)
    (hm : 0 ≤ s.NowMonth ∧ s.NowMonth ≤ 11)
    (hy : INT_MIN ≤ s.NowYear ∧ s.NowYear < INT_MAX)
    (hc : INT_MIN ≤ s.monthCount ∧ s.monthCount < INT_MAX) :
    (WatcherAdvance L s).monthCount = s.monthCount + 1 ∧
      (WatcherAdvance L s).NowYear = (if s.NowMonth = 11 then s.NowYear + 1 else s.NowYear) ∧
      (WatcherAdvance L s).NowMonth = (if s.NowMonth = 11 then 0 else s.NowMonth + 1) := by
  have e1 : wrapInt (s.NowMonth + 1) = s.NowMonth + 1 :=
    wrapInt_of_range _ (by unfold INT_MIN; omega) (by unfold INT_MAX; omega)
  have e2 : wrapInt (s.NowYear + 1) = s.NowYear + 1 :=
    wrapInt_of_range _ (by unfold INT_MIN at *; omega) (by unfold INT_MAX at *; omega)
  have e3 : wrapInt (s.monthCount + 1) = s.monthCount + 1 :=
    wrapInt_of_range _ (by unfold INT_MIN at *; omega) (by unfold INT_MAX at *; omega)
  have hc2 : (WatcherAdvance L s).monthCount = wrapInt (s.monthCount + 1) := rfl
  have hy2 : (WatcherAdvance L s).NowYear =
      (if wrapInt (s.NowMonth + 1) > 11 then wrapInt (s.NowYear + 1) else s.NowYear) := rfl
  have hm2 : (WatcherAdvance L s).NowMonth =
      (if wrapInt (s.NowMonth + 1) > 11 then 0 else wrapInt (s.NowMonth + 1)) := rfl
  rw [hc2, hy2, hm2, e1, e2, e3]
  refine ⟨rfl, ?_, ?_⟩ <;> split_ifs <;> omega

/-- The clock after `k` months of a run started by `main`. -/
theorem stateAfter_clock (L : Libc) (k : Nat) (hk : (k : Int) + 1 ≤ INT_MAX) :
    (stateAfter L (mainInit L) k).NowMonth = (k : Int) % 12 ∧
      (stateAfter L (mainInit L) k).NowYear = 2019 + (k : Int) / 12 ∧
      (stateAfter L (mainInit L) k).monthCount = (k : Int) + 1 := by
  induction k with
  | zero => exact ⟨rfl, rfl, rfl⟩
  | succ k ih =>
    unfold INT_MAX at hk
    push_cast at hk
    obtain ⟨h1, h2, h3⟩ := ih (by unfold INT_MAX; omega)
    have hadv := WatcherAdvance_clock L (assigned L (stateAfter L (mainInit L) k))
      (by
        show 0 ≤ (stateAfter L (mainInit L) k).NowMonth ∧
          (stateAfter L (mainInit L) k).NowMonth ≤ 11
        omega)
      (by
        show INT_MIN ≤ (stateAfter L (mainInit L) k).NowYear ∧
          (stateAfter L (mainInit L) k).NowYear < INT_MAX
        unfold INT_MIN INT_MAX
        omega)
      (by
        show INT_MIN ≤ (stateAfter L (mainInit L) k).monthCount ∧
          (stateAfter L (mainInit L) k).monthCount < INT_MAX
        unfold INT_MIN INT_MAX
        omega)
    have a1 : (assigned L (stateAfter L (mainInit L) k)).NowMonth =
        (stateAfter L (mainInit L) k).NowMonth := rfl
    have a2 : (assigned L (stateAfter L (mainInit L) k)).NowYear =
        (stateAfter L (mainInit L) k).NowYear := rfl
    have a3 : (assigned L (stateAfter L (mainInit L) k)).monthCount =
        (stateAfter L (mainInit L) k).monthCount := rfl
    rw [a1, a2, a3] at hadv
    obtain ⟨c1, c2, c3⟩ := hadv
    show (WatcherAdvance L (assigned L (stateAfter L (mainInit L) k))).NowMonth =
        ((k + 1 : Nat) : Int) % 12 ∧
      (WatcherAdvance L (assigned L (stateAfter L (mainInit L) k))).NowYear =
        2019 + ((k + 1 : Nat) : Int) / 12 ∧
      (WatcherAdvance L (assigned L (stateAfter L (mainInit L) k))).monthCount =
        ((k + 1 : Nat) : Int) + 1
    rw [c1, c2, c3]
    push_cast
    refine ⟨?_, ?_, by omega⟩ <;> split_ifs <;> omega

/-- C9: an advance of the clock by `Watcher` (from a month in `0 .. 11`, with
year and month counter below `INT_MAX`) leaves the month in `0 .. 11`, adds
exactly 1 to `monthCount`, does not decrease `NowYear`, and adds 1 to `NowYear`
exactly when the month wraps from 11 to 0; it preserves
`monthCount = 12 * (NowYear - 2019) + NowMonth + 1`, which holds (with the
month in `0 .. 11`) after every number `k` of months of a run started by
`main`, `k + 1 ≤ INT_MAX`. -/
theorem C9_clock (L : Libc) (s : State) (k : Nat)
    (hm : 0 ≤ s.NowMonth ∧ s.NowMonth ≤ 11)
    (hy : INT_MIN ≤ s.NowYear ∧ s.NowYear < INT_MAX)
    (hc : INT_MIN ≤ s.monthCount ∧ s.monthCount < INT_MAX)
    (hk : (k : Int) + 1 ≤ INT_MAX) :
    (0 ≤ (WatcherAdvance L s).NowMonth ∧ (WatcherAdvance L s).NowMonth ≤ 11) ∧
      (WatcherAdvance L s).monthCount = s.monthCount + 1 ∧
      s.NowYear ≤ (WatcherAdvance L s).NowYear ∧
      ((WatcherAdvance L s).NowYear = s.NowYear + 1 ↔
        (s.NowMonth = 11 ∧ (WatcherAdvance L s).NowMonth = 0)) ∧
      (s.NowMonth ≠ 11 → (WatcherAdvance L s).NowYear = s.NowYear ∧
        (WatcherAdvance L s).NowMonth = s.NowMonth + 1) ∧
      (s.monthCount = 12 * (s.NowYear - 2019) + s.NowMonth + 1 →
        (WatcherAdvance L s).monthCount =
          12 * ((WatcherAdvance L s).NowYear - 2019) + (WatcherAdvance L s).NowMonth + 1) ∧
      (0 ≤ (stateAfter L (mainInit L) k).NowMonth ∧
        (stateAfter L (mainInit L) k).NowMonth ≤ 11) ∧
      (stateAfter L (mainInit L) k).monthCount =
        12 * ((stateAfter L (mainInit L) k).NowYear - 2019) +
          (stateAfter L (mainInit L) k).NowMonth + 1 := by
  obtain ⟨c1, c2, c3⟩ := WatcherAdvance_clock L s hm hy hc
  obtain ⟨k1, k2, k3⟩ := stateAfter_clock L k hk
  rw [c1, c2, c3, k1, k2, k3]
  refine ⟨?_, rfl, ?_, ?_, ?_, ?_, by omega, by omega⟩
  · split_ifs <;> omega
  · split_ifs <;> omega
  · split_ifs <;> omega
  · intro hne
    rw [if_neg hne, if_neg hne]
    exact ⟨rfl, rfl⟩
  · intro hinv
    split_ifs <;> omega

theorem C9_clock_witness :
    (0 ≤ (mainInit sampleLibc).NowMonth ∧ (mainInit sampleLibc).NowMonth ≤ 11) ∧
      (INT_MIN ≤ (mainInit sampleLibc).NowYear ∧ (mainInit sampleLibc).NowYear < INT_MAX) ∧
      (INT_MIN ≤ (mainInit sampleLibc).monthCount ∧
        (mainInit sampleLibc).monthCount < INT_MAX) ∧
      ((72 : Nat) : Int) + 1 ≤ INT_MAX ∧
      (WatcherAdvance sampleLibc (mainInit sampleLibc)).monthCount =
        (mainInit sampleLibc).monthCount + 1 ∧
      (stateAfter sampleLibc (mainInit sampleLibc) 72).monthCount =
        12 * ((stateAfter sampleLibc (mainInit sampleLibc) 72).NowYear - 2019) +
          (stateAfter sampleLibc (mainInit sampleLibc) 72).NowMonth + 1 :=
  have h := C9_clock sampleLibc (mainInit sampleLibc) 72 ⟨by decide, by decide⟩
    ⟨by decide, by decide⟩ ⟨by decide, by decide⟩ (by decide)
  ⟨⟨by decide, by decide⟩, ⟨by decide, by decide⟩, ⟨by decide, by decide⟩, by decide,
    h.2.1, h.2.2.2.2.2.2.2⟩

/-! ## C10: one writer per state variable -/

/-- The state variables a month of section `r` can change. -/
theorem changesField_owner (r : Role) (f : Field) (h : changesField r f) :
    match r with
    | .Graindeer => f = .NowNumDeer
    | .Grain => f = .NowHeight
    | .DietPopularity => f = .NowDietPopularity
    | .Watcher =>
      f = .NowYear ∨ f = .NowMonth ∨ f = .monthCount ∨ f = .NowTemp ∨ f = .NowPrecip := by
  obtain ⟨L, snap, s, hne⟩ := h
  cases r <;> cases f <;> first
    | rfl
    | exact Or.inl rfl
    | exact Or.inr (Or.inl rfl)
    | exact Or.inr (Or.inr (Or.inl rfl))
    | exact Or.inr (Or.inr (Or.inr (Or.inl rfl)))
    | exact Or.inr (Or.inr (Or.inr (Or.inr rfl)))
    | exact absurd rfl hne

/-- C10: over one month, section `Graindeer` changes no state variable other
than `NowNumDeer`, `Grain` none other than `NowHeight`, `DietPopularity` none
other than `NowDietPopularity`, and `Watcher` none other than `NowYear`,
`NowMonth`, `monthCount`, `NowTemp` and `NowPrecip`; a state variable that two
sections change is changed by one and the same section. (The state variables
are the eight globals that define the system state. The generator `seed` is
not one of them: `Graindeer` and `Grain` leave it alone, `DietPopularity` and
`Watcher` both advance it through `rand_r`.) -/
theorem C10_single_writer (r1 r2 : Role) (f : Field) (L : Libc) (snap s : State)
    (h1 : changesField r1 f) (h2 : changesField r2 f) :
    r1 = r2 ∧
      (match r1 with
        | .Graindeer => f = .NowNumDeer
        | .Grain => f = .NowHeight
        | .DietPopularity => f = .NowDietPopularity
        | .Watcher =>
          f = .NowYear ∨ f = .NowMonth ∨ f = .monthCount ∨ f = .NowTemp ∨ f = .NowPrecip) ∧
      (GraindeerStep snap s).seed = s.seed ∧
      (GrainStep L snap s).seed = s.seed ∧
      (DietPopularityStep L snap s).seed = (L.rand_r s.seed).2 ∧
      (WatcherStep L snap s).seed = (L.rand_r (L.rand_r s.seed).2).2 := by
  have o1 := changesField_owner r1 f h1
  have o2 := changesField_owner r2 f h2
  refine ⟨?_, o1, rfl, rfl, rfl, rfl⟩
  cases r1 <;> cases r2 <;> first
    | rfl
    | (exfalso; simp only at o1 o2; subst o1; simp at o2)
    | (exfalso; simp only at o1 o2; subst o2; simp at o1)

theorem C10_single_writer_witness :
    changesField .Graindeer .NowNumDeer ∧
      (Role.Graindeer = Role.Graindeer ∧ Field.NowNumDeer = Field.NowNumDeer) := by
  have hch : changesField .Graindeer .NowNumDeer := by
    refine ⟨sampleLibc, { mainInit sampleLibc with NowHeight := 2 },
      { mainInit sampleLibc with NowHeight := 2 }, ?_⟩
    have e : GraindeerNext 1 2 = 2 := by
      rw [GraindeerNext_exact 1 2 (by decide) (by decide)]
      unfold wrapInt
      norm_num
    show ¬ ((1 : Int) = GraindeerNext 1 2)
    rw [e]
    decide
  have h := C10_single_writer .Graindeer .Graindeer .NowNumDeer sampleLibc
    (mainInit sampleLibc) (mainInit sampleLibc) hch hch
  exact ⟨hch, h.1, h.2.1⟩

/-! ## C11: the generator state -/

/-- One month advances the global `seed` by three draws: one by
`DietPopularity`, then two by `Watcher`. -/
theorem simCycle_seed (L : Libc) (s : State) :
    (assigned L s).seed = (L.rand_r s.seed).2 ∧
      (simCycle L s).2.seed = (L.rand_r (L.rand_r (L.rand_r s.seed).2).2).2 :=
  ⟨rfl, rfl⟩

/-- The global `seed` at the start of month `k` of a run started by `main`:
the two draws of `main` and three draws for every month before. -/
theorem stateAfter_seed (L : Libc) (k : Nat) :
    (stateAfter L (mainInit L) k).seed = seedAfterDraws L (3 * k + 2) := by
  induction k with
  | zero => rfl
  | succ k ih =>
    show (simCycle L (stateAfter L (mainInit L) k)).2.seed = seedAfterDraws L (3 * (k + 1) + 2)
    rw [(simCycle_seed L _).2, ih]
    rfl

/-- C11, as stated, fails: with the sample generator, `DietPopularity` leaves
the global `seed` at 2802067423 after its draw of the first month, and the
seed it draws from in the second month is 229283573, because `Watcher` has
advanced the same `seed` twice in between; the noise it then draws differs
from the one its own last generator state would give. -/
theorem C11_counterexample :
    (assigned sampleLibc (mainInit sampleLibc)).seed = 2802067423 ∧
      (WatcherStep sampleLibc (mainInit sampleLibc)
        (assigned sampleLibc (mainInit sampleLibc))).seed = 229283573 ∧
      (stateAfter sampleLibc (mainInit sampleLibc) 1).seed = 229283573 ∧
      dietNoise sampleLibc 1 ≠
        (Ranf sampleLibc (assigned sampleLibc (mainInit sampleLibc)).seed
          (-RANDOM_SOCIAL) RANDOM_SOCIAL).1 := by
  have e0 : (mainInit sampleLibc).seed = 3554416254 := by decide
  have e1 : (assigned sampleLibc (mainInit sampleLibc)).seed = 2802067423 := by
    rw [(simCycle_seed sampleLibc _).1, e0]
    decide
  have e2 : (stateAfter sampleLibc (mainInit sampleLibc) 1).seed = 229283573 := by
    show (simCycle sampleLibc (mainInit sampleLibc)).2.seed = 229283573
    rw [(simCycle_seed sampleLibc _).2, e0]
    decide
  refine ⟨e1, e2, e2, ?_⟩
  unfold dietNoise
  rw [e1, e2]
  unfold Ranf RanfValue RANDOM_SOCIAL
  have r1 : (sampleLibc.rand_r 229283573).1 = 1628409413 := by decide
  have r2 : (sampleLibc.rand_r 2802067423).1 = 1798475286 := by decide
  have rm : sampleLibc.RAND_MAX = 2147483647 := rfl
  simp only [r1, r2, rm]
  norm_num

/-- C11 (amended): all draws of a run come from the one global `seed`, in the
order the barriers fix. At the start of month `k` (counted from 0) the seed has
been advanced `3 * k + 2` times from 0; `DietPopularity` draws its noise from
that seed; `Watcher` then draws the temperature and the precipitation of the
next month from the seed `DietPopularity` has left (`3 * k + 3` and
`3 * k + 4` draws). -/
theorem C11_shared_seed (L : Libc) (k : Nat) :
    (stateAfter L (mainInit L) k).seed = seedAfterDraws L (3 * k + 2) ∧
      dietNoise L k =
        RanfValue L.RAND_MAX (L.rand_r (seedAfterDraws L (3 * k + 2))).1
          (-RANDOM_SOCIAL) RANDOM_SOCIAL ∧
      (assigned L (stateAfter L (mainInit L) k)).seed = seedAfterDraws L (3 * k + 3) ∧
      (stateAfter L (mainInit L) (k + 1)).NowTemp =
        (environment L (stateAfter L (mainInit L) (k + 1)).NowMonth
          (seedAfterDraws L (3 * k + 3))).1 ∧
      (stateAfter L (mainInit L) (k + 1)).NowPrecip =
        (environment L (stateAfter L (mainInit L) (k + 1)).NowMonth
          (seedAfterDraws L (3 * k + 3))).2.1 ∧
      (stateAfter L (mainInit L) (k + 1)).seed = seedAfterDraws L (3 * k + 5) := by
  have hk := stateAfter_seed L k
  have ha : (assigned L (stateAfter L (mainInit L) k)).seed = seedAfterDraws L (3 * k + 3) := by
    rw [(simCycle_seed L _).1, hk]
    rfl
  refine ⟨hk, ?_, ha, ?_, ?_, stateAfter_seed L (k + 1)⟩
  · unfold dietNoise Ranf
    rw [hk]
  · show (environment L _ (assigned L (stateAfter L (mainInit L) k)).seed).1 = _
    rw [ha]
    rfl
  · show (environment L _ (assigned L (stateAfter L (mainInit L) k)).seed).2.1 = _
    rw [ha]
    rfl

/-! ## The concurrent program keeps to the phases of `simCycle` -/

theorem agree_refl (S : State) : agree S S := by
  intro f
  cases f <;> rfl

theorem agree_seed (S : State) (x : Nat) : agree S { S with seed := x } := by
  intro f
  cases f <;> rfl

theorem PhaseA_init (L : Libc) (endYear : Int) (s0 : State) :
    PhaseA L endYear s0 (initConfig s0) where
  pcs := fun _ => Or.inl rfl
  globals := rfl
  deer := fun h => by cases h
  grain := fun h => by cases h
  diet := fun h => by cases h

theorem testStep_barrier1_iff (endYear : Int) (c : Config) (r r' : Role)
    (hr' : r' ≠ Role.Watcher) (hpc : c.pc r = Pc.test) :
    (testStep endYear r c).pc r' = Pc.barrier1 ↔ c.pc r' = Pc.barrier1 := by
  by_cases hrr : r' = r
  · subst hrr
    simp only [testStep, Function.update_same, hpc, if_neg hr']
    split_ifs <;> simp
  · simp only [testStep, Function.update_noteq hrr]

theorem PhaseA_testStep (L : Libc) (endYear : Int) (S : State) (c : Config) (r : Role)
    (h : PhaseA L endYear S c) (hpc : c.pc r = Pc.test) :
    PhaseA L endYear S (testStep endYear r c) := by
  have hyear : c.g.NowYear = S.NowYear := by rw [h.globals]
  have hg : agree S c.g := by rw [h.globals]; exact agree_seed S _
  have hD := testStep_barrier1_iff endYear c r Role.DietPopularity (by decide) hpc
  have hG := testStep_barrier1_iff endYear c r Role.Graindeer (by decide) hpc
  have hH := testStep_barrier1_iff endYear c r Role.Grain (by decide) hpc
  refine ⟨?_, ?_, fun h1 => h.deer (hG.mp h1), fun h1 => h.grain (hH.mp h1),
    fun h1 => h.diet (hD.mp h1)⟩
  · intro r'
    by_cases hrr : r' = r
    · subst hrr
      right
      refine ⟨by simpa [testStep] using hg, ?_⟩
      by_cases hy : S.NowYear < endYear
      · right
        refine ⟨hy, ?_⟩
        by_cases hw : r' = Role.Watcher
        · left; simp [testStep, hyear, hy, hw]
        · right; exact ⟨by simp [testStep, hyear, hy, hw], hw⟩
      · left
        exact ⟨by simp [testStep, hyear, hy], hy⟩
    · have e1 : (testStep endYear r c).pc r' = c.pc r' := by
        simp only [testStep, Function.update_noteq hrr]
      have e2 : (testStep endYear r c).seen r' = c.seen r' := by
        simp only [testStep, Function.update_noteq hrr]
      rw [e1, e2]
      exact h.pcs r'
  · have e : (testStep endYear r c).g = c.g := rfl
    rw [e, h.globals]
    by_cases hd : c.pc Role.DietPopularity = Pc.barrier1
    · rw [if_pos hd, if_pos (hD.mpr hd)]
    · rw [if_neg hd, if_neg (fun h1 => hd (hD.mp h1))]

theorem PhaseA_compute_facts (L : Libc) (endYear : Int) (S : State) (c : Config) (r : Role)
    (h : PhaseA L endYear S c) (hpc : c.pc r = Pc.compute) :
    S.NowYear < endYear ∧ r ≠ Role.Watcher := by
  rcases h.pcs r with h0 | ⟨-, ⟨h1, -⟩ | ⟨hy, h2 | ⟨-, hw⟩⟩⟩
  · rw [hpc] at h0; cases h0
  · rw [hpc] at h1; cases h1
  · rw [hpc] at h2; cases h2
  · exact ⟨hy, hw⟩

theorem PhaseA_computeStep (L : Libc) (endYear : Int) (S : State) (c : Config) (r : Role)
    (h : PhaseA L endYear S c) (hpc : c.pc r = Pc.compute) :
    PhaseA L endYear S (computeStep L r c) := by
  obtain ⟨hy, hw⟩ := PhaseA_compute_facts L endYear S c r h hpc
  have hg : agree S c.g := by rw [h.globals]; exact agree_seed S _
  have hpcs : ∀ r', (computeStep L r c).pc r' = Pc.test ∨
      (agree S ((computeStep L r c).seen r') ∧
        (((computeStep L r c).pc r' = Pc.done ∧ ¬ S.NowYear < endYear) ∨
          (S.NowYear < endYear ∧
            ((computeStep L r c).pc r' = Pc.barrier1 ∨
              ((computeStep L r c).pc r' = Pc.compute ∧ r' ≠ Role.Watcher))))) := by
    intro r'
    by_cases hrr : r' = r
    · subst hrr
      right
      refine ⟨by simpa [computeStep] using hg, Or.inr ⟨hy, Or.inl ?_⟩⟩
      simp [computeStep]
    · have e1 : (computeStep L r c).pc r' = c.pc r' := by
        simp only [computeStep, Function.update_noteq hrr]
      have e2 : (computeStep L r c).seen r' = c.seen r' := by
        simp only [computeStep, Function.update_noteq hrr]
      rw [e1, e2]
      exact h.pcs r'
  have hglob := h.globals
  have hdeer := h.deer
  have hgrain := h.grain
  have hdiet := h.diet
  cases r with
  | Watcher => exact absurd rfl hw
  | Graindeer =>
    refine ⟨hpcs, ?_, ?_, ?_, ?_⟩
    · simpa [computeStep, Function.update] using hglob
    · intro _
      simp [computeStep, hglob]
    · simpa [computeStep, Function.update] using hgrain
    · simpa [computeStep, Function.update] using hdiet
  | Grain =>
    refine ⟨hpcs, ?_, ?_, ?_, ?_⟩
    · simpa [computeStep, Function.update] using hglob
    · simpa [computeStep, Function.update] using hdeer
    · intro _
      simp [computeStep, hglob]
    · simpa [computeStep, Function.update] using hdiet
  | DietPopularity =>
    refine ⟨hpcs, ?_, ?_, ?_, ?_⟩
    · simp [computeStep, hglob, hpc, Ranf]
    · simpa [computeStep, Function.update] using hdeer
    · simpa [computeStep, Function.update] using hgrain
    · intro _
      simp [computeStep, hglob, hpc]

theorem allAtBarrier_iff (pc : Role → Pc) :
    allAtBarrier pc = true ↔ ∀ r, atBarrier (pc r) = true := by
  unfold allAtBarrier
  simp only [Bool.and_eq_true]
  constructor
  · rintro ⟨⟨⟨h1, h2⟩, h3⟩, h4⟩ r
    cases r
    · exact h1
    · exact h2
    · exact h3
    · exact h4
  · intro h
    exact ⟨⟨⟨h _, h _⟩, h _⟩, h _⟩

/-- In phase A a section that waits at a barrier waits at the first one, and the
loop condition holds. -/
theorem PhaseA_atBarrier (L : Libc) (endYear : Int) (S : State) (c : Config) (r : Role)
    (h : PhaseA L endYear S c) (hb : atBarrier (c.pc r) = true) :
    c.pc r = Pc.barrier1 ∧ S.NowYear < endYear ∧ agree S (c.seen r) := by
  rcases h.pcs r with h0 | ⟨ha, ⟨h1, -⟩ | ⟨hy, h2 | ⟨h3, -⟩⟩⟩
  · rw [h0] at hb; cases hb
  · rw [h1] at hb; cases hb
  · exact ⟨h2, hy, ha⟩
  · rw [h3] at hb; cases hb

theorem PhaseA_release (L : Libc) (endYear : Int) (S : State) (c : Config)
    (h : PhaseA L endYear S c) (hall : allAtBarrier c.pc = true) :
    PhaseB L endYear S { c with pc := fun r => afterBarrier r (c.pc r) } := by
  have hb := (allAtBarrier_iff c.pc).mp hall
  have h1 : ∀ r, c.pc r = Pc.barrier1 := fun r => (PhaseA_atBarrier L endYear S c r h (hb r)).1
  refine ⟨(PhaseA_atBarrier L endYear S c Role.Watcher h (hb _)).2.1,
    fun r => (PhaseA_atBarrier L endYear S c r h (hb r)).2.2, ?_, ?_, h.deer (h1 _),
    h.grain (h1 _), h.diet (h1 _), ?_⟩
  · simp [h1, afterBarrier]
  · intro r hr
    left
    simp [h1, afterBarrier, hr]
  · have hg := h.globals
    rw [if_pos (h1 _)] at hg
    simp [h1, afterBarrier, hg]

theorem PhaseB_assign_facts (L : Libc) (endYear : Int) (S : State) (c : Config) (r : Role)
    (h : PhaseB L endYear S c) (hpc : c.pc r = Pc.assign) : r ≠ Role.Watcher := by
  intro hw
  subst hw
  rw [h.watcher] at hpc
  cases hpc

theorem PhaseB_assignStep (L : Libc) (endYear : Int) (S : State) (c : Config) (r : Role)
    (h : PhaseB L endYear S c) (hpc : c.pc r = Pc.assign) :
    PhaseB L endYear S (assignStep r c) := by
  have hw := PhaseB_assign_facts L endYear S c r h hpc
  have hwatcher : (assignStep r c).pc Role.Watcher = Pc.barrier2 := by
    have e : (assignStep r c).pc Role.Watcher = c.pc Role.Watcher := by
      simp only [assignStep, Function.update_noteq (Ne.symm hw)]
    rw [e, h.watcher]
  have hpcs : ∀ r', r' ≠ Role.Watcher →
      (assignStep r c).pc r' = Pc.assign ∨ (assignStep r c).pc r' = Pc.barrier2 := by
    intro r' hr'
    by_cases hrr : r' = r
    · subst hrr
      right
      simp [assignStep]
    · have e : (assignStep r c).pc r' = c.pc r' := by
        simp only [assignStep, Function.update_noteq hrr]
      rw [e]
      exact h.pcs r' hr'
  have hseen : ∀ r', agree S ((assignStep r c).seen r') := by
    intro r'
    have e : (assignStep r c).seen r' = c.seen r' := by
      cases r <;> rfl
    rw [e]
    exact h.seen r'
  have hglob := h.globals
  have hdeer := h.deer
  have hgrain := h.grain
  have hdiet := h.diet
  have hy := h.year
  cases r with
  | Watcher => exact absurd rfl hw
  | Graindeer =>
    refine ⟨hy, hseen, hwatcher, hpcs, hdeer, hgrain, hdiet, ?_⟩
    simp [assignStep, hglob, hdeer, Function.update]
  | Grain =>
    refine ⟨hy, hseen, hwatcher, hpcs, hdeer, hgrain, hdiet, ?_⟩
    simp [assignStep, hglob, hgrain, Function.update]
  | DietPopularity =>
    refine ⟨hy, hseen, hwatcher, hpcs, hdeer, hgrain, hdiet, ?_⟩
    simp [assignStep, hglob, hdiet, Function.update]

theorem PhaseB_atBarrier (L : Libc) (endYear : Int) (S : State) (c : Config) (r : Role)
    (h : PhaseB L endYear S c) (hb : atBarrier (c.pc r) = true) : c.pc r = Pc.barrier2 := by
  by_cases hw : r = Role.Watcher
  · subst hw
    exact h.watcher
  · rcases h.pcs r hw with h1 | h2
    · rw [h1] at hb; cases hb
    · exact h2

theorem PhaseB_release (L : Libc) (endYear : Int) (S : State) (recs : List Record)
    (c : Config) (h : PhaseB L endYear S c) (hout : c.out = recs)
    (hall : allAtBarrier c.pc = true) :
    PhaseC L endYear S recs { c with pc := fun r => afterBarrier r (c.pc r) } := by
  have hb := (allAtBarrier_iff c.pc).mp hall
  have h2 : ∀ r, c.pc r = Pc.barrier2 := fun r => PhaseB_atBarrier L endYear S c r h (hb r)
  refine ⟨h.year, h.seen, ?_, Or.inl ⟨?_, ?_, hout⟩⟩
  · intro r hr
    simp [h2, afterBarrier, hr]
  · simp [h2, afterBarrier]
  · have hg := h.globals
    rw [if_pos (h2 _), if_pos (h2 _), if_pos (h2 _)] at hg
    show c.g = assigned L S
    rw [hg]
    rfl

theorem PhaseC_print_facts (L : Libc) (endYear : Int) (S : State) (recs : List Record)
    (c : Config) (r : Role) (h : PhaseC L endYear S recs c) (hpc : c.pc r = Pc.print) :
    r = Role.Watcher ∧ c.g = assigned L S ∧ c.out = recs := by
  have hw : r = Role.Watcher := by
    by_contra hne
    have := h.pcs r hne
    rw [hpc] at this
    cases this
  subst hw
  rcases h.watcher with ⟨-, hg, ho⟩ | ⟨h3, -, -⟩
  · exact ⟨rfl, hg, ho⟩
  · rw [hpc] at h3; cases h3

theorem PhaseC_printStep (L : Libc) (endYear : Int) (S : State) (recs : List Record)
    (c : Config) (r : Role) (h : PhaseC L endYear S recs c) (hpc : c.pc r = Pc.print) :
    PhaseC L endYear S recs (printStep L r c) := by
  obtain ⟨hw, hg, ho⟩ := PhaseC_print_facts L endYear S recs c r h hpc
  subst hw
  refine ⟨h.year, h.seen, ?_, Or.inr ⟨?_, ?_, ?_⟩⟩
  · intro r' hr'
    have e : (printStep L Role.Watcher c).pc r' = c.pc r' := by
      simp only [printStep, Function.update_noteq hr']
    rw [e]
    exact h.pcs r' hr'
  · simp [printStep]
  · show WatcherAdvance L c.g = (simCycle L S).2
    rw [hg]
    rfl
  · show c.out ++ [WatcherPrint c.g] = recs ++ [(simCycle L S).1]
    rw [hg, ho]
    rfl

theorem PhaseC_atBarrier (L : Libc) (endYear : Int) (S : State) (recs : List Record)
    (c : Config) (h : PhaseC L endYear S recs c)
    (hb : atBarrier (c.pc Role.Watcher) = true) :
    (∀ r, c.pc r = Pc.barrier3) ∧ c.g = (simCycle L S).2 ∧
      c.out = recs ++ [(simCycle L S).1] := by
  rcases h.watcher with ⟨h1, -, -⟩ | ⟨h3, hg, ho⟩
  · rw [h1] at hb; cases hb
  · refine ⟨fun r => ?_, hg, ho⟩
    by_cases hw : r = Role.Watcher
    · subst hw; exact h3
    · exact h.pcs r hw

theorem PhaseC_release (L : Libc) (endYear : Int) (S : State) (recs : List Record)
    (c : Config) (h : PhaseC L endYear S recs c) (hall : allAtBarrier c.pc = true) :
    PhaseA L endYear (simCycle L S).2 { c with pc := fun r => afterBarrier r (c.pc r) } ∧
      c.out = recs ++ [(simCycle L S).1] := by
  have hb := (allAtBarrier_iff c.pc).mp hall
  obtain ⟨h3, hg, ho⟩ := PhaseC_atBarrier L endYear S recs c h (hb _)
  have hpc : ∀ r, afterBarrier r (c.pc r) = Pc.test := by
    intro r
    rw [h3 r]
    rfl
  refine ⟨⟨fun r => Or.inl (hpc r), ?_, ?_, ?_, ?_⟩, ho⟩
  · show c.g = _
    rw [hg]
    simp [hpc]
  · intro h1
    simp [hpc] at h1
  · intro h1
    simp [hpc] at h1
  · intro h1
    simp [hpc] at h1

theorem PhaseA_pc (L : Libc) (endYear : Int) (S : State) (c : Config) (r : Role)
    (h : PhaseA L endYear S c) :
    c.pc r = Pc.test ∨ c.pc r = Pc.compute ∨ c.pc r = Pc.barrier1 ∨ c.pc r = Pc.done := by
  rcases h.pcs r with h0 | ⟨-, ⟨h1, -⟩ | ⟨-, h2 | ⟨h3, -⟩⟩⟩
  · exact Or.inl h0
  · exact Or.inr (Or.inr (Or.inr h1))
  · exact Or.inr (Or.inr (Or.inl h2))
  · exact Or.inr (Or.inl h3)

theorem PhaseB_pc (L : Libc) (endYear : Int) (S : State) (c : Config) (r : Role)
    (h : PhaseB L endYear S c) : c.pc r = Pc.assign ∨ c.pc r = Pc.barrier2 := by
  by_cases hw : r = Role.Watcher
  · subst hw
    exact Or.inr h.watcher
  · exact h.pcs r hw

theorem PhaseC_pc (L : Libc) (endYear : Int) (S : State) (recs : List Record) (c : Config)
    (r : Role) (h : PhaseC L endYear S recs c) : c.pc r = Pc.print ∨ c.pc r = Pc.barrier3 := by
  by_cases hw : r = Role.Watcher
  · subst hw
    rcases h.watcher with ⟨h1, -, -⟩ | ⟨h3, -, -⟩
    · exact Or.inl h1
    · exact Or.inr h3
  · exact Or.inr (h.pcs r hw)

/-- A block of a section keeps the invariant of the month. -/
theorem Inv_threadStep (L : Libc) (endYear : Int) (s0 : State) (m : Nat) (c c' : Config)
    (r : Role) (h : Inv L endYear s0 m c) (hs : threadStep L endYear r c = some c') :
    Inv L endYear s0 m c' := by
  obtain ⟨hprev, hphase⟩ := h
  refine ⟨hprev, ?_⟩
  unfold threadStep at hs
  rcases hphase with ⟨hA, hout⟩ | ⟨hB, hout⟩ | hC
  · rcases PhaseA_pc L endYear _ c r hA with hp | hp | hp | hp
    · rw [hp] at hs
      cases hs
      exact Or.inl ⟨PhaseA_testStep L endYear _ c r hA hp, hout⟩
    · rw [hp] at hs
      cases hs
      refine Or.inl ⟨PhaseA_computeStep L endYear _ c r hA hp, ?_⟩
      have e : (computeStep L r c).out = c.out := by cases r <;> rfl
      rw [e, hout]
    · rw [hp] at hs; cases hs
    · rw [hp] at hs; cases hs
  · rcases PhaseB_pc L endYear _ c r hB with hp | hp
    · rw [hp] at hs
      cases hs
      refine Or.inr (Or.inl ⟨PhaseB_assignStep L endYear _ c r hB hp, ?_⟩)
      have e : (assignStep r c).out = c.out := by cases r <;> rfl
      rw [e, hout]
    · rw [hp] at hs; cases hs
  · rcases PhaseC_pc L endYear _ _ c r hC with hp | hp
    · rw [hp] at hs
      cases hs
      exact Or.inr (Or.inr (PhaseC_printStep L endYear _ _ c r hC hp))
    · rw [hp] at hs; cases hs

/-- The release of a barrier keeps the invariant; the release of the third
barrier moves it to the next month. -/
theorem Inv_release (L : Libc) (endYear : Int) (s0 : State) (m : Nat) (c c' : Config)
    (h : Inv L endYear s0 m c) (hs : release c = some c') :
    Inv L endYear s0 m c' ∨ Inv L endYear s0 (m + 1) c' := by
  obtain ⟨hprev, hphase⟩ := h
  unfold release at hs
  by_cases hall : allAtBarrier c.pc = true
  · rw [if_pos hall] at hs
    cases hs
    rcases hphase with ⟨hA, hout⟩ | ⟨hB, hout⟩ | hC
    · exact Or.inl ⟨hprev, Or.inr (Or.inl ⟨PhaseA_release L endYear _ c hA hall, hout⟩)⟩
    · exact Or.inl ⟨hprev, Or.inr (Or.inr (PhaseB_release L endYear _ _ c hB hout hall))⟩
    · obtain ⟨hA, hout⟩ := PhaseC_release L endYear _ _ c hC hall
      refine Or.inr ⟨?_, Or.inl ⟨hA, hout⟩⟩
      intro j hj
      by_cases hjm : j < m
      · exact hprev j hjm
      · have : j = m := by omega
        subst this
        exact hC.year
  · rw [if_neg hall] at hs
    cases hs

/-- Every reachable configuration satisfies the invariant of some month. -/
theorem Reachable_Inv (L : Libc) (endYear : Int) (s0 : State) (c : Config)
    (h : Reachable L endYear s0 c) : ∃ m, Inv L endYear s0 m c := by
  induction h with
  | init =>
    exact ⟨0, fun j hj => absurd hj (Nat.not_lt_zero j),
      Or.inl ⟨PhaseA_init L endYear s0, rfl⟩⟩
  | step c c' _ hstep ih =>
    obtain ⟨m, hm⟩ := ih
    rcases hstep with ⟨r, hr⟩ | hrel
    · exact ⟨m, Inv_threadStep L endYear s0 m c c' r hm hr⟩
    · rcases Inv_release L endYear s0 m c c' hm hrel with h1 | h2
      · exact ⟨m, h1⟩
      · exact ⟨m + 1, h2⟩

/-! ## No deadlock -/

theorem threadStep_enabled (L : Libc) (endYear : Int) (c : Config) (r : Role)
    (hp : c.pc r = Pc.test ∨ c.pc r = Pc.compute ∨ c.pc r = Pc.assign ∨ c.pc r = Pc.print) :
    ∃ c', Step L endYear c c' := by
  rcases hp with hp | hp | hp | hp
  · exact ⟨testStep endYear r c, Or.inl ⟨r, by simp [threadStep, hp]⟩⟩
  · exact ⟨computeStep L r c, Or.inl ⟨r, by simp [threadStep, hp]⟩⟩
  · exact ⟨assignStep r c, Or.inl ⟨r, by simp [threadStep, hp]⟩⟩
  · exact ⟨printStep L r c, Or.inl ⟨r, by simp [threadStep, hp]⟩⟩

theorem release_enabled (L : Libc) (endYear : Int) (c : Config)
    (h : ∀ r, atBarrier (c.pc r) = true) : ∃ c', Step L endYear c c' :=
  ⟨{ c with pc := fun r => afterBarrier r (c.pc r) },
    Or.inr (by simp [release, (allAtBarrier_iff c.pc).mpr h])⟩

/-- Under the invariant, either all four sections have left their loops or
some step is enabled. -/
theorem Inv_progress (L : Libc) (endYear : Int) (s0 : State) (m : Nat) (c : Config)
    (h : Inv L endYear s0 m c) : terminated c ∨ ∃ c', Step L endYear c c' := by
  obtain ⟨-, hphase⟩ := h
  rcases hphase with ⟨hA, -⟩ | ⟨hB, -⟩ | hC
  · by_cases hex : ∃ r, c.pc r = Pc.test ∨ c.pc r = Pc.compute
    · obtain ⟨r, hr⟩ := hex
      right
      rcases hr with hr | hr
      · exact threadStep_enabled L endYear c r (Or.inl hr)
      · exact threadStep_enabled L endYear c r (Or.inr (Or.inl hr))
    · have hrest : ∀ r, c.pc r = Pc.barrier1 ∨ c.pc r = Pc.done := by
        intro r
        rcases PhaseA_pc L endYear _ c r hA with hp | hp | hp | hp
        · exact absurd ⟨r, Or.inl hp⟩ hex
        · exact absurd ⟨r, Or.inr hp⟩ hex
        · exact Or.inl hp
        · exact Or.inr hp
      by_cases hy : (stateAfter L s0 m).NowYear < endYear
      · right
        apply release_enabled
        intro r
        rcases hA.pcs r with h0 | ⟨-, ⟨-, hn⟩ | ⟨-, h2 | ⟨h3, -⟩⟩⟩
        · exact absurd ⟨r, Or.inl h0⟩ hex
        · exact absurd hy hn
        · rw [h2]; rfl
        · exact absurd ⟨r, Or.inr h3⟩ hex
      · left
        intro r
        rcases hA.pcs r with h0 | ⟨-, ⟨h1, -⟩ | ⟨hy2, -⟩⟩
        · exact absurd ⟨r, Or.inl h0⟩ hex
        · exact h1
        · exact absurd hy2 hy
  · right
    by_cases hex : ∃ r, c.pc r = Pc.assign
    · obtain ⟨r, hr⟩ := hex
      exact threadStep_enabled L endYear c r (Or.inr (Or.inr (Or.inl hr)))
    · apply release_enabled
      intro r
      rcases PhaseB_pc L endYear _ c r hB with hp | hp
      · exact absurd ⟨r, hp⟩ hex
      · rw [hp]; rfl
  · right
    by_cases hex : ∃ r, c.pc r = Pc.print
    · obtain ⟨r, hr⟩ := hex
      exact threadStep_enabled L endYear c r (Or.inr (Or.inr (Or.inr hr)))
    · apply release_enabled
      intro r
      rcases PhaseC_pc L endYear _ _ c r hC with hp | hp
      · exact absurd ⟨r, hp⟩ hex
      · rw [hp]; rfl

/-- What the invariant of month `m` says about reads: a section past its loop
test has seen the state variables of the state after `m` months, a section
before its loop test or its compute block finds them in the globals, and a
section is out of its loop only if the loop condition fails in that state, in
which case no section is inside the loop. -/
theorem Inv_reads (L : Libc) (endYear : Int) (s0 : State) (m : Nat) (c : Config)
    (h : Inv L endYear s0 m c) :
    (∀ r, c.pc r ≠ Pc.test → agree (stateAfter L s0 m) (c.seen r)) ∧
      (∀ r, c.pc r = Pc.test ∨ c.pc r = Pc.compute → agree (stateAfter L s0 m) c.g) ∧
      (∀ r, c.pc r = Pc.done → ¬ (stateAfter L s0 m).NowYear < endYear ∧
        ∀ r', c.pc r' = Pc.test ∨ c.pc r' = Pc.done) ∧
      (∀ r, c.pc r ≠ Pc.test → c.pc r ≠ Pc.done → (stateAfter L s0 m).NowYear < endYear) ∧
      c.out = recordsAfter L s0 (if c.pc Role.Watcher = Pc.barrier3 then m + 1 else m) := by
  obtain ⟨-, hphase⟩ := h
  rcases hphase with ⟨hA, hout⟩ | ⟨hB, hout⟩ | hC
  · refine ⟨?_, ?_, ?_, ?_, ?_⟩
    · intro r hr
      rcases hA.pcs r with h0 | ⟨ha, -⟩
      · exact absurd h0 hr
      · exact ha
    · intro r _
      rw [hA.globals]
      exact agree_seed _ _
    · intro r hr
      have hn : ¬ (stateAfter L s0 m).NowYear < endYear := by
        rcases hA.pcs r with h0 | ⟨-, ⟨-, hn⟩ | ⟨-, h2 | ⟨h3, -⟩⟩⟩
        · rw [hr] at h0; cases h0
        · exact hn
        · rw [hr] at h2; cases h2
        · rw [hr] at h3; cases h3
      refine ⟨hn, fun r' => ?_⟩
      rcases hA.pcs r' with h0 | ⟨-, ⟨h1, -⟩ | ⟨hy, -⟩⟩
      · exact Or.inl h0
      · exact Or.inr h1
      · exact absurd hy hn
    · intro r hr hd
      rcases hA.pcs r with h0 | ⟨-, ⟨h1, -⟩ | ⟨hy, -⟩⟩
      · exact absurd h0 hr
      · exact absurd h1 hd
      · exact hy
    · have hw : c.pc Role.Watcher ≠ Pc.barrier3 := by
        rcases PhaseA_pc L endYear _ c Role.Watcher hA with hp | hp | hp | hp <;>
          rw [hp] <;> decide
      rw [if_neg hw, hout]
  · refine ⟨fun r _ => hB.seen r, ?_, ?_, fun _ _ _ => hB.year, ?_⟩
    · intro r hr
      rcases PhaseB_pc L endYear _ c r hB with hp | hp <;> rw [hp] at hr <;>
        rcases hr with hr | hr <;> cases hr
    · intro r hr
      rcases PhaseB_pc L endYear _ c r hB with hp | hp <;> rw [hp] at hr <;> cases hr
    · have hw : c.pc Role.Watcher ≠ Pc.barrier3 := by
        rw [hB.watcher]; decide
      rw [if_neg hw, hout]
  · refine ⟨fun r _ => hC.seen r, ?_, ?_, fun _ _ _ => hC.year, ?_⟩
    · intro r hr
      rcases PhaseC_pc L endYear _ _ c r hC with hp | hp <;> rw [hp] at hr <;>
        rcases hr with hr | hr <;> cases hr
    · intro r hr
      rcases PhaseC_pc L endYear _ _ c r hC with hp | hp <;> rw [hp] at hr <;> cases hr
    · rcases hC.watcher with ⟨h1, -, ho⟩ | ⟨h3, -, ho⟩
      · rw [if_neg (by rw [h1]; decide), ho]
      · rw [if_pos h3, ho]
        rfl

/-! ## Complete runs and the sequential loop -/

theorem recordsAfter_shift (L : Libc) (s : State) (n : Nat) :
    recordsAfter L s (n + 1) = (simCycle L s).1 :: recordsAfter L (simCycle L s).2 n := by
  induction n with
  | zero => rfl
  | succ n ih =>
    show recordsAfter L s (n + 1) ++ [(simCycle L (stateAfter L s (n + 1))).1] =
      (simCycle L s).1 ::
        (recordsAfter L (simCycle L s).2 n ++
          [(simCycle L (stateAfter L (simCycle L s).2 n)).1])
    rw [ih, stateAfter_shift]
    rfl

/-- When the sequential loop returns, it has run for the least number `n` of
months after which the loop condition fails; its output and final globals are
those of the first `n` months. -/
theorem runLoop_records (L : Libc) (endYear : Int) :
    ∀ (fuel : Nat) (s : State) (recs : List Record) (t : State),
      runLoop L endYear fuel s = some (recs, t) →
      ∃ n, recs = recordsAfter L s n ∧ t = stateAfter L s n ∧
        ¬ (stateAfter L s n).NowYear < endYear ∧
        ∀ j, j < n → (stateAfter L s j).NowYear < endYear := by
  intro fuel
  induction fuel with
  | zero =>
    intro s recs t h
    by_cases hy : s.NowYear < endYear
    · simp [runLoop, hy] at h
    · simp [runLoop, hy] at h
      obtain ⟨h1, h2⟩ := h
      subst h1 h2
      exact ⟨0, rfl, rfl, hy, fun j hj => absurd hj (Nat.not_lt_zero j)⟩
  | succ fuel ih =>
    intro s recs t h
    by_cases hy : s.NowYear < endYear
    · simp only [runLoop, hy, if_true] at h
      cases hrec : runLoop L endYear fuel (simCycle L s).2 with
      | none => rw [hrec] at h; cases h
      | some res =>
        rw [hrec] at h
        simp only [Option.some.injEq, Prod.mk.injEq] at h
        obtain ⟨h1, h2⟩ := h
        obtain ⟨n, e1, e2, e3, e4⟩ := ih (simCycle L s).2 res.1 res.2 hrec
        refine ⟨n + 1, ?_, ?_, ?_, ?_⟩
        · rw [recordsAfter_shift, ← e1, h1]
        · rw [← stateAfter_shift, ← e2, h2]
        · rw [← stateAfter_shift]
          exact e3
        · intro j hj
          cases j with
          | zero => exact hy
          | succ j =>
            rw [← stateAfter_shift]
            exact e4 j (by omega)
    · simp [runLoop, hy] at h
      obtain ⟨h1, h2⟩ := h
      subst h1 h2
      exact ⟨0, rfl, rfl, hy, fun j hj => absurd hj (Nat.not_lt_zero j)⟩

/-- The month in which a run ends is determined by the sequential states. -/
theorem exit_month_unique (L : Libc) (endYear : Int) (s0 : State) (m n : Nat)
    (hm : ¬ (stateAfter L s0 m).NowYear < endYear)
    (hm2 : ∀ j, j < m → (stateAfter L s0 j).NowYear < endYear)
    (hn : ¬ (stateAfter L s0 n).NowYear < endYear)
    (hn2 : ∀ j, j < n → (stateAfter L s0 j).NowYear < endYear) : m = n := by
  rcases Nat.lt_trichotomy m n with h | h | h
  · exact absurd (hn2 m h) hm
  · exact h
  · exact absurd (hm2 n h) hn

/-- A configuration in which all sections have left their loops holds the
globals and the output of the sequential run up to the exit month. -/
theorem Inv_terminated (L : Libc) (endYear : Int) (s0 : State) (m : Nat) (c : Config)
    (h : Inv L endYear s0 m c) (ht : terminated c) :
    c.g = stateAfter L s0 m ∧ c.out = recordsAfter L s0 m ∧
      ¬ (stateAfter L s0 m).NowYear < endYear ∧
      ∀ j, j < m → (stateAfter L s0 j).NowYear < endYear := by
  obtain ⟨hprev, hphase⟩ := h
  rcases hphase with ⟨hA, hout⟩ | ⟨hB, -⟩ | hC
  · refine ⟨?_, hout, ?_, hprev⟩
    · rw [hA.globals, if_neg (by rw [ht Role.DietPopularity]; decide)]
    · rcases hA.pcs Role.Watcher with h0 | ⟨-, ⟨-, hn⟩ | ⟨-, h2 | ⟨h3, -⟩⟩⟩
      · rw [ht Role.Watcher] at h0; cases h0
      · exact hn
      · rw [ht Role.Watcher] at h2; cases h2
      · rw [ht Role.Watcher] at h3; cases h3
  · have := hB.watcher
    rw [ht Role.Watcher] at this
    cases this
  · rcases PhaseC_pc L endYear _ _ c Role.Watcher hC with hp | hp <;>
      rw [ht Role.Watcher] at hp <;> cases hp

/-- Every complete run of the concurrent program ends with the same globals
and the same output, under every schedule. -/
theorem terminated_unique (L : Libc) (endYear : Int) (s0 : State) (c1 c2 : Config)
    (h1 : Reachable L endYear s0 c1) (h2 : Reachable L endYear s0 c2)
    (t1 : terminated c1) (t2 : terminated c2) : c1.out = c2.out ∧ c1.g = c2.g := by
  obtain ⟨m1, i1⟩ := Reachable_Inv L endYear s0 c1 h1
  obtain ⟨m2, i2⟩ := Reachable_Inv L endYear s0 c2 h2
  obtain ⟨g1, o1, y1, p1⟩ := Inv_terminated L endYear s0 m1 c1 i1 t1
  obtain ⟨g2, o2, y2, p2⟩ := Inv_terminated L endYear s0 m2 c2 i2 t2
  have hm := exit_month_unique L endYear s0 m1 m2 y1 p1 y2 p2
  subst hm
  exact ⟨by rw [o1, o2], by rw [g1, g2]⟩

/-- A complete run of the concurrent program prints the records of the
sequential loop and ends with its globals. -/
theorem terminated_runLoop (L : Libc) (endYear : Int) (s0 : State) (c : Config)
    (h : Reachable L endYear s0 c) (ht : terminated c) (fuel : Nat) (recs : List Record)
    (t : State) (hrun : runLoop L endYear fuel s0 = some (recs, t)) :
    c.out = recs ∧ c.g = t := by
  obtain ⟨m, i⟩ := Reachable_Inv L endYear s0 c h
  obtain ⟨g1, o1, y1, p1⟩ := Inv_terminated L endYear s0 m c i ht
  obtain ⟨n, e1, e2, y2, p2⟩ := runLoop_records L endYear fuel s0 recs t hrun
  have hm := exit_month_unique L endYear s0 m n y1 p1 y2 p2
  subst hm
  exact ⟨by rw [o1, e1], by rw [g1, e2]⟩

/-! ## A complete run exists -/

theorem Reachable_test (L : Libc) (endYear : Int) (s0 : State) (c : Config) (r : Role)
    (h : Reachable L endYear s0 c) (hp : c.pc r = Pc.test) :
    Reachable L endYear s0 (testStep endYear r c) :=
  Reachable.step c _ h (Or.inl ⟨r, by simp [threadStep, hp]⟩)

theorem Reachable_compute (L : Libc) (endYear : Int) (s0 : State) (c : Config) (r : Role)
    (h : Reachable L endYear s0 c) (hp : c.pc r = Pc.compute) :
    Reachable L endYear s0 (computeStep L r c) :=
  Reachable.step c _ h (Or.inl ⟨r, by simp [threadStep, hp]⟩)

theorem Reachable_assign (L : Libc) (endYear : Int) (s0 : State) (c : Config) (r : Role)
    (h : Reachable L endYear s0 c) (hp : c.pc r = Pc.assign) :
    Reachable L endYear s0 (assignStep r c) :=
  Reachable.step c _ h (Or.inl ⟨r, by simp [threadStep, hp]⟩)

theorem Reachable_print (L : Libc) (endYear : Int) (s0 : State) (c : Config) (r : Role)
    (h : Reachable L endYear s0 c) (hp : c.pc r = Pc.print) :
    Reachable L endYear s0 (printStep L r c) :=
  Reachable.step c _ h (Or.inl ⟨r, by simp [threadStep, hp]⟩)

theorem Reachable_release (L : Libc) (endYear : Int) (s0 : State) (c : Config)
    (h : Reachable L endYear s0 c) (hb : allAtBarrier c.pc = true) :
    Reachable L endYear s0 (released c) :=
  Reachable.step c _ h (Or.inr (by simp [release, released, hb]))

/-- From a configuration in which all sections stand before the loop test and
the loop condition holds, the first schedule reaches the start of the next
month. -/
theorem lockstepMonth_spec (L : Libc) (endYear : Int) (s0 : State) (c : Config)
    (h : Reachable L endYear s0 c) (hpc : ∀ r, c.pc r = Pc.test)
    (hy : c.g.NowYear < endYear) :
    Reachable L endYear s0 (lockstepMonth L endYear c) ∧
      (∀ r, (lockstepMonth L endYear c).pc r = Pc.test) ∧
      (lockstepMonth L endYear c).g = (simCycle L c.g).2 := by
  have r1 := Reachable_test L endYear s0 _ Role.Graindeer h (hpc _)
  have r2 := Reachable_test L endYear s0 _ Role.Grain r1
    (by simp [testStep, Function.update, hpc])
  have r3 := Reachable_test L endYear s0 _ Role.DietPopularity r2
    (by simp [testStep, Function.update, hpc])
  have r4 := Reachable_test L endYear s0 _ Role.Watcher r3
    (by simp [testStep, Function.update, hpc])
  have r5 := Reachable_compute L endYear s0 _ Role.Graindeer r4
    (by simp [testStep, Function.update, hpc, hy])
  have r6 := Reachable_compute L endYear s0 _ Role.Grain r5
    (by simp [testStep, computeStep, Function.update, hpc, hy])
  have r7 := Reachable_compute L endYear s0 _ Role.DietPopularity r6
    (by simp [testStep, computeStep, Function.update, hpc, hy])
  have r8 := Reachable_release L endYear s0 _ r7
    (by simp [allAtBarrier, atBarrier, testStep, computeStep, Function.update, hpc, hy])
  have r9 := Reachable_assign L endYear s0 _ Role.Graindeer r8
    (by simp [released, afterBarrier, testStep, computeStep, Function.update, hpc, hy])
  have r10 := Reachable_assign L endYear s0 _ Role.Grain r9
    (by simp [released, afterBarrier, testStep, computeStep, assignStep, Function.update,
      hpc, hy])
  have r11 := Reachable_assign L endYear s0 _ Role.DietPopularity r10
    (by simp [released, afterBarrier, testStep, computeStep, assignStep, Function.update,
      hpc, hy])
  have r12 := Reachable_release L endYear s0 _ r11
    (by simp [allAtBarrier, atBarrier, released, afterBarrier, testStep, computeStep,
      assignStep, Function.update, hpc, hy])
  have r13 := Reachable_print L endYear s0 _ Role.Watcher r12
    (by simp [released, afterBarrier, testStep, computeStep, assignStep, Function.update,
      hpc, hy])
  have r14 := Reachable_release L endYear s0 _ r13
    (by simp [allAtBarrier, atBarrier, released, afterBarrier, testStep, computeStep,
      assignStep, printStep, Function.update, hpc, hy])
  refine ⟨r14, ?_, rfl⟩
  intro r
  cases r <;>
    simp [lockstepMonth, released, afterBarrier, testStep, computeStep, assignStep, printStep,
      Function.update, hpc, hy]

/-- The second schedule reaches the start of the next month as well. -/
theorem reverseMonth_spec (L : Libc) (endYear : Int) (s0 : State) (c : Config)
    (h : Reachable L endYear s0 c) (hpc : ∀ r, c.pc r = Pc.test)
    (hy : c.g.NowYear < endYear) :
    Reachable L endYear s0 (reverseMonth L endYear c) ∧
      (∀ r, (reverseMonth L endYear c).pc r = Pc.test) ∧
      (reverseMonth L endYear c).g = (simCycle L c.g).2 := by
  have r1 := Reachable_test L endYear s0 _ Role.Watcher h (hpc _)
  have r2 := Reachable_test L endYear s0 _ Role.DietPopularity r1
    (by simp [testStep, Function.update, hpc])
  have r3 := Reachable_compute L endYear s0 _ Role.DietPopularity r2
    (by simp [testStep, Function.update, hpc, hy])
  have r4 := Reachable_test L endYear s0 _ Role.Grain r3
    (by simp [testStep, computeStep, Function.update, hpc])
  have r5 := Reachable_compute L endYear s0 _ Role.Grain r4
    (by simp [testStep, computeStep, Function.update, hpc, hy])
  have r6 := Reachable_test L endYear s0 _ Role.Graindeer r5
    (by simp [testStep, computeStep, Function.update, hpc])
  have r7 := Reachable_compute L endYear s0 _ Role.Graindeer r6
    (by simp [testStep, computeStep, Function.update, hpc, hy])
  have r8 := Reachable_release L endYear s0 _ r7
    (by simp [allAtBarrier, atBarrier, testStep, computeStep, Function.update, hpc, hy])
  have r9 := Reachable_assign L endYear s0 _ Role.DietPopularity r8
    (by simp [released, afterBarrier, testStep, computeStep, Function.update, hpc, hy])
  have r10 := Reachable_assign L endYear s0 _ Role.Grain r9
    (by simp [released, afterBarrier, testStep, computeStep, assignStep, Function.update,
      hpc, hy])
  have r11 := Reachable_assign L endYear s0 _ Role.Graindeer r10
    (by simp [released, afterBarrier, testStep, computeStep, assignStep, Function.update,
      hpc, hy])
  have r12 := Reachable_release L endYear s0 _ r11
    (by simp [allAtBarrier, atBarrier, released, afterBarrier, testStep, computeStep,
      assignStep, Function.update, hpc, hy])
  have r13 := Reachable_print L endYear s0 _ Role.Watcher r12
    (by simp [released, afterBarrier, testStep, computeStep, assignStep, Function.update,
      hpc, hy])
  have r14 := Reachable_release L endYear s0 _ r13
    (by simp [allAtBarrier, atBarrier, released, afterBarrier, testStep, computeStep,
      assignStep, printStep, Function.update, hpc, hy])
  refine ⟨r14, ?_, rfl⟩
  intro r
  cases r <;>
    simp [reverseMonth, released, afterBarrier, testStep, computeStep, assignStep, printStep,
      Function.update, hpc, hy]

theorem lockstepExit_spec (L : Libc) (endYear : Int) (s0 : State) (c : Config)
    (h : Reachable L endYear s0 c) (hpc : ∀ r, c.pc r = Pc.test)
    (hy : ¬ c.g.NowYear < endYear) :
    Reachable L endYear s0 (lockstepExit endYear c) ∧ terminated (lockstepExit endYear c) := by
  have r1 := Reachable_test L endYear s0 _ Role.Graindeer h (hpc _)
  have r2 := Reachable_test L endYear s0 _ Role.Grain r1
    (by simp [testStep, Function.update, hpc])
  have r3 := Reachable_test L endYear s0 _ Role.DietPopularity r2
    (by simp [testStep, Function.update, hpc])
  have r4 := Reachable_test L endYear s0 _ Role.Watcher r3
    (by simp [testStep, Function.update, hpc])
  refine ⟨r4, ?_⟩
  intro r
  cases r <;> simp [lockstepExit, testStep, Function.update, hy]

theorem reverseExit_spec (L : Libc) (endYear : Int) (s0 : State) (c : Config)
    (h : Reachable L endYear s0 c) (hpc : ∀ r, c.pc r = Pc.test)
    (hy : ¬ c.g.NowYear < endYear) :
    Reachable L endYear s0 (reverseExit endYear c) ∧ terminated (reverseExit endYear c) := by
  have r1 := Reachable_test L endYear s0 _ Role.Watcher h (hpc _)
  have r2 := Reachable_test L endYear s0 _ Role.DietPopularity r1
    (by simp [testStep, Function.update, hpc])
  have r3 := Reachable_test L endYear s0 _ Role.Grain r2
    (by simp [testStep, Function.update, hpc])
  have r4 := Reachable_test L endYear s0 _ Role.Graindeer r3
    (by simp [testStep, Function.update, hpc])
  refine ⟨r4, ?_⟩
  intro r
  cases r <;> simp [reverseExit, testStep, Function.update, hy]

/-- When the loop condition holds at the start of the first `n` months and
fails after them, the first schedule gives a complete run of `n` months. -/
theorem lockstepRun_spec (L : Libc) (endYear : Int) (s0 : State) :
    ∀ (n : Nat) (c : Config), Reachable L endYear s0 c → (∀ r, c.pc r = Pc.test) →
      (∀ j, j < n → (stateAfter L c.g j).NowYear < endYear) →
      ¬ (stateAfter L c.g n).NowYear < endYear →
      Reachable L endYear s0 (lockstepRun L endYear n c) ∧
        terminated (lockstepRun L endYear n c) := by
  intro n
  induction n with
  | zero =>
    intro c h hpc _ hy
    exact lockstepExit_spec L endYear s0 c h hpc hy
  | succ n ih =>
    intro c h hpc hlt hy
    obtain ⟨h1, h2, h3⟩ := lockstepMonth_spec L endYear s0 c h hpc (hlt 0 (Nat.succ_pos n))
    apply ih (lockstepMonth L endYear c) h1 h2
    · intro j hj
      rw [h3, stateAfter_shift]
      exact hlt (j + 1) (by omega)
    · rw [h3, stateAfter_shift]
      exact hy

/-- The same for the second schedule. -/
theorem reverseRun_spec (L : Libc) (endYear : Int) (s0 : State) :
    ∀ (n : Nat) (c : Config), Reachable L endYear s0 c → (∀ r, c.pc r = Pc.test) →
      (∀ j, j < n → (stateAfter L c.g j).NowYear < endYear) →
      ¬ (stateAfter L c.g n).NowYear < endYear →
      Reachable L endYear s0 (reverseRun L endYear n c) ∧
        terminated (reverseRun L endYear n c) := by
  intro n
  induction n with
  | zero =>
    intro c h hpc _ hy
    exact reverseExit_spec L endYear s0 c h hpc hy
  | succ n ih =>
    intro c h hpc hlt hy
    obtain ⟨h1, h2, h3⟩ := reverseMonth_spec L endYear s0 c h hpc (hlt 0 (Nat.succ_pos n))
    apply ih (reverseMonth L endYear c) h1 h2
    · intro j hj
      rw [h3, stateAfter_shift]
      exact hlt (j + 1) (by omega)
    · rw [h3, stateAfter_shift]
      exact hy

/-- The loop condition of the shipped program (`END_YEAR = 2025`, started by
`main`) holds at the start of the first 72 months and fails after them. -/
theorem shipped_years (L : Libc) :
    (∀ j, j < 72 → (stateAfter L (mainInit L) j).NowYear < END_YEAR) ∧
      ¬ (stateAfter L (mainInit L) 72).NowYear < END_YEAR := by
  constructor
  · intro j hj
    rw [(stateAfter_clock L j (by unfold INT_MAX; omega)).2.1]
    unfold END_YEAR
    omega
  · rw [(stateAfter_clock L 72 (by decide)).2.1]
    decide

/-- The sequential loop returns after the least number of months after which
the loop condition fails, given that much fuel. -/
theorem runLoop_of_exit (L : Libc) (endYear : Int) :
    ∀ (n : Nat) (s : State), (∀ j, j < n → (stateAfter L s j).NowYear < endYear) →
      ¬ (stateAfter L s n).NowYear < endYear →
      runLoop L endYear n s = some (recordsAfter L s n, stateAfter L s n) := by
  intro n
  induction n with
  | zero =>
    intro s _ hy
    have hy2 : ¬ s.NowYear < endYear := hy
    simp [runLoop, hy2, recordsAfter, stateAfter]
  | succ n ih =>
    intro s hlt hy
    have h0 : s.NowYear < endYear := hlt 0 (Nat.succ_pos n)
    have hrec := ih (simCycle L s).2
      (fun j hj => by rw [stateAfter_shift]; exact hlt (j + 1) (by omega))
      (by rw [stateAfter_shift]; exact hy)
    simp only [runLoop, h0, if_true, hrec]
    rw [recordsAfter_shift, stateAfter_shift]

theorem agree_of_common (S a b : State) (ha : agree S a) (hb : agree S b) : agree a b := by
  intro f
  have h1 := ha f
  have h2 := hb f
  cases f <;> exact h1.symm.trans h2

theorem recordsAfter_length (L : Libc) (s : State) (n : Nat) :
    (recordsAfter L s n).length = n := by
  induction n with
  | zero => rfl
  | succ n ih =>
    show (recordsAfter L s n ++ [(simCycle L (stateAfter L s n)).1]).length = n + 1
    rw [List.length_append, ih]
    rfl

/-! ## C12: no stale or mixed reads -/

/-- C12: in every configuration the four concurrent sections can reach, under
any schedule, there is a month `m` (the number of records printed, one less
while `Watcher` waits at the third barrier) such that: the state after
`m` months is the one left by the assignments and the advance of `Watcher` in
the month before; every section past its loop test has read the eight state
variables (temperature, precipitation, year and the others) of the state after
`m` months, so any two of them have read the same values; a section before its
loop test or its compute block finds these values in the globals; a section has
left its loop only if the loop condition fails in that state, and then every
section has left or is about to test the same condition; and either all
sections have left their loops or a step is enabled (no deadlock). -/
theorem C12_settled_reads (L : Libc) (endYear : Int) (s0 : State) (c : Config)
    (h : Reachable L endYear s0 c) :
    ∃ m,
      (∀ j, j < m → (stateAfter L s0 j).NowYear < endYear) ∧
      (∀ k, stateAfter L s0 (k + 1) = WatcherAdvance L (assigned L (stateAfter L s0 k))) ∧
      c.out = recordsAfter L s0 (if c.pc Role.Watcher = Pc.barrier3 then m + 1 else m) ∧
      (∀ r, c.pc r ≠ Pc.test → agree (stateAfter L s0 m) (c.seen r)) ∧
      (∀ r, c.pc r = Pc.test ∨ c.pc r = Pc.compute → agree (stateAfter L s0 m) c.g) ∧
      (∀ r r', c.pc r ≠ Pc.test → c.pc r' ≠ Pc.test → agree (c.seen r) (c.seen r')) ∧
      (∀ r, c.pc r = Pc.done → ¬ (stateAfter L s0 m).NowYear < endYear ∧
        ∀ r', c.pc r' = Pc.test ∨ c.pc r' = Pc.done) ∧
      (∀ r, c.pc r ≠ Pc.test → c.pc r ≠ Pc.done → (stateAfter L s0 m).NowYear < endYear) ∧
      (terminated c ∨ ∃ c', Step L endYear c c') := by
  obtain ⟨m, hinv⟩ := Reachable_Inv L endYear s0 c h
  obtain ⟨a1, a2, a3, a4, a5⟩ := Inv_reads L endYear s0 m c hinv
  exact ⟨m, hinv.1, fun _ => rfl, a5, a1, a2,
    fun r r' hr hr' => agree_of_common _ _ _ (a1 r hr) (a1 r' hr'), a3, a4,
    Inv_progress L endYear s0 m c hinv⟩

theorem C12_settled_reads_witness :
    Reachable sampleLibc END_YEAR (mainInit sampleLibc)
        (lockstepMonth sampleLibc END_YEAR (initConfig (mainInit sampleLibc))) ∧
      ∃ m, (∀ r, (lockstepMonth sampleLibc END_YEAR (initConfig (mainInit sampleLibc))).pc r =
            Pc.test ∨
          (lockstepMonth sampleLibc END_YEAR (initConfig (mainInit sampleLibc))).pc r =
            Pc.compute →
          agree (stateAfter sampleLibc (mainInit sampleLibc) m)
            (lockstepMonth sampleLibc END_YEAR (initConfig (mainInit sampleLibc))).g) ∧
        (lockstepMonth sampleLibc END_YEAR (initConfig (mainInit sampleLibc))).out =
          recordsAfter sampleLibc (mainInit sampleLibc) m := by
  have hr := (lockstepMonth_spec sampleLibc END_YEAR (mainInit sampleLibc)
    (initConfig (mainInit sampleLibc)) Reachable.init (fun _ => rfl) (by decide)).1
  have hw := (lockstepMonth_spec sampleLibc END_YEAR (mainInit sampleLibc)
    (initConfig (mainInit sampleLibc)) Reachable.init (fun _ => rfl) (by decide)).2.1
  obtain ⟨m, -, -, h3, -, h5, -⟩ := C12_settled_reads sampleLibc END_YEAR (mainInit sampleLibc)
    (lockstepMonth sampleLibc END_YEAR (initConfig (mainInit sampleLibc))) hr
  rw [if_neg (by rw [hw Role.Watcher]; decide)] at h3
  exact ⟨hr, m, h5, h3⟩

/-! ## C13: determinism -/

/-- C13: two complete runs of the concurrent program from the same globals
(`seed` included), with the same `endYear` and the same library, end with the
same sequence of records and the same globals, whatever the schedules; the
sequence is the one the sequential loop returns, so it is a function of the
initial globals and the constants; for the program as shipped (`main`, which
starts from `seed = 0`, and `END_YEAR`) it has 72 records. -/
theorem C13_determinism (L : Libc) (endYear : Int) (s0 : State) (c1 c2 : Config)
    (h1 : Reachable L endYear s0 c1) (h2 : Reachable L endYear s0 c2)
    (t1 : terminated c1) (t2 : terminated c2) :
    c1.out = c2.out ∧ c1.g = c2.g ∧
      (∃ n, runLoop L endYear n s0 = some (c1.out, c1.g) ∧ c1.out.length = n) ∧
      (∀ fuel recs t, runLoop L endYear fuel s0 = some (recs, t) → c1.out = recs ∧ c1.g = t) ∧
      (s0 = mainInit L → endYear = END_YEAR → c1.out.length = 72) := by
  obtain ⟨e1, e2⟩ := terminated_unique L endYear s0 c1 c2 h1 h2 t1 t2
  obtain ⟨m, i⟩ := Reachable_Inv L endYear s0 c1 h1
  obtain ⟨g1, o1, y1, p1⟩ := Inv_terminated L endYear s0 m c1 i t1
  refine ⟨e1, e2, ⟨m, ?_, ?_⟩,
    fun fuel recs t hrun => terminated_runLoop L endYear s0 c1 h1 t1 fuel recs t hrun, ?_⟩
  · rw [g1, o1]
    exact runLoop_of_exit L endYear m s0 p1 y1
  · rw [o1]
    exact recordsAfter_length L s0 m
  · intro hs he
    subst hs he
    obtain ⟨q1, q2⟩ := shipped_years L
    have hm := exit_month_unique L END_YEAR (mainInit L) m 72 y1 p1 q2 q1
    rw [o1, recordsAfter_length, hm]

theorem C13_determinism_witness :
    Reachable sampleLibc END_YEAR (mainInit sampleLibc)
        (lockstepRun sampleLibc END_YEAR 72 (initConfig (mainInit sampleLibc))) ∧
      Reachable sampleLibc END_YEAR (mainInit sampleLibc)
        (reverseRun sampleLibc END_YEAR 72 (initConfig (mainInit sampleLibc))) ∧
      terminated (lockstepRun sampleLibc END_YEAR 72 (initConfig (mainInit sampleLibc))) ∧
      terminated (reverseRun sampleLibc END_YEAR 72 (initConfig (mainInit sampleLibc))) ∧
      (lockstepRun sampleLibc END_YEAR 72 (initConfig (mainInit sampleLibc))).out =
        (reverseRun sampleLibc END_YEAR 72 (initConfig (mainInit sampleLibc))).out ∧
      (lockstepRun sampleLibc END_YEAR 72 (initConfig (mainInit sampleLibc))).out.length =
        72 := by
  obtain ⟨q1, q2⟩ := shipped_years sampleLibc
  obtain ⟨a1, a2⟩ := lockstepRun_spec sampleLibc END_YEAR (mainInit sampleLibc) 72
    (initConfig (mainInit sampleLibc)) Reachable.init (fun _ => rfl) q1 q2
  obtain ⟨b1, b2⟩ := reverseRun_spec sampleLibc END_YEAR (mainInit sampleLibc) 72
    (initConfig (mainInit sampleLibc)) Reachable.init (fun _ => rfl) q1 q2
  have h := C13_determinism sampleLibc END_YEAR (mainInit sampleLibc) _ _ a1 b1 a2 b2
  exact ⟨a1, b1, a2, b2, h.1, h.2.2.2.2 rfl rfl⟩

end Project3
